import Mathlib

/-!
Shallow embedding of the Gmail MCP server (src/mcp_server/gmail/index.js) of the
autocoder repository.  Strings that cross the provider wire are modelled as lists
of byte values (`List Nat`, each `< 256`); provider calls are recorded explicitly
so that call-count properties can be stated; the provider itself is an oracle
passed to each handler.  Nondeterministic inputs of the source (the current time
and the two random boundary suffixes) are fields of the environment.
-/

/-- ASCII byte values of a string (used only on ASCII literals of the source). -/
def ascii (s : String) : List Nat := s.data.map Char.toNat

/-- The byte pair CR LF, written "\r\n" in the source. -/
def crlf : List Nat := [13, 10]

/-- A blank line: CR LF CR LF. -/
def crlf2 : List Nat := crlf ++ crlf

/-- Two ASCII dashes, the boundary-delimiter lead-in of RFC 2046. -/
def dd : List Nat := [45, 45]

/-- JavaScript truthiness of a possibly-absent byte string: present and non-empty. -/
def truthyBytes : Option (List Nat) → Bool
  | none => false
  | some l => !l.isEmpty

/-- JavaScript truthiness of a possibly-absent string: present and non-empty. -/
def truthyStr : Option String → Bool
  | none => false
  | some s => !(s == "")

/-- JavaScript truthiness of a possibly-absent number: present and non-zero. -/
def truthyNat : Option Nat → Bool
  | none => false
  | some n => !(n == 0)

/-- Does `pat` occur as a contiguous block anywhere in the list? -/
def containsSeq (pat : List Nat) : List Nat → Bool
  | [] => List.isPrefixOf pat []
  | x :: xs => List.isPrefixOf pat (x :: xs) || containsSeq pat xs

/-- Split at the first occurrence of `pat`: `some (before, after)`, or `none`. -/
def breakOnSeq (pat : List Nat) : List Nat → Option (List Nat × List Nat)
  | [] => if List.isPrefixOf pat ([] : List Nat) then some ([], []) else none
  | x :: xs =>
    if List.isPrefixOf pat (x :: xs) then some ([], (x :: xs).drop pat.length)
    else
      match breakOnSeq pat xs with
      | some (a, b) => some (x :: a, b)
      | none => none

/-- Fuel-bounded repeated split on every occurrence of `pat`. -/
def splitOnSeqAux (pat : List Nat) : Nat → List Nat → List (List Nat)
  | 0, l => [l]
  | fuel + 1, l =>
    match breakOnSeq pat l with
    | none => [l]
    | some (a, b) => a :: splitOnSeqAux pat fuel b

/-- Split a list on every occurrence of `pat` (like String.split on a separator). -/
def splitOnSeq (pat l : List Nat) : List (List Nat) := splitOnSeqAux pat (l.length + 1) l

/-- Join a list of chunks with a separator between consecutive chunks. -/
def interc (sep : List Nat) : List (List Nat) → List Nat
  | [] => []
  | [x] => x
  | x :: y :: xs => x ++ sep ++ interc sep (y :: xs)

/-- `pat` has no occurrence starting strictly before position `a.length`
in any list of the form `a ++ pat ++ suffix` (boundary non-collision). -/
def noEarlyOcc (pat a : List Nat) : Bool := !(containsSeq pat (a ++ pat.dropLast))

/- ===== base64 (Buffer.toString with base64, and the base64url variant) ===== -/

/-- Byte values of the standard base64 alphabet. -/
def b64Alphabet : List Nat :=
  ascii "ABCDEFGHIJKLMNOPQRSTUVWXYZabcdefghijklmnopqrstuvwxyz0123456789+/"

/-- Sestet value to base64 character byte. -/
def b64charN (n : Nat) : Nat := b64Alphabet.getD n 65

/-- Standard base64 encoding with padding, as the byte values of the output text;
models Buffer.from(bytes).toString with the base64 codec. -/
def b64encodeBytes : List Nat → List Nat
  | [] => []
  | [a] => [b64charN (a / 4), b64charN (a % 4 * 16), 61, 61]
  | [a, b] => [b64charN (a / 4), b64charN (a % 4 * 16 + b / 16), b64charN (b % 16 * 4), 61]
  | a :: b :: c :: rest =>
    b64charN (a / 4) :: b64charN (a % 4 * 16 + b / 16) ::
    b64charN (b % 16 * 4 + c / 64) :: b64charN (c % 64) :: b64encodeBytes rest

/-- The two global replacements of sendEmail: plus to dash, slash to underscore. -/
def b64urlReplace (c : Nat) : Nat := if c = 43 then 45 else if c = 47 then 95 else c

/-- Strip the trailing padding, modelling the replace of a trailing equals run. -/
def stripTrailingEq (l : List Nat) : List Nat :=
  (l.reverse.dropWhile (fun c => c == 61)).reverse

/-- The base64url envelope encoding of sendEmail lines 434-438: standard base64,
plus to dash, slash to underscore, trailing padding stripped. -/
def base64urlEncode (l : List Nat) : List Nat :=
  stripTrailingEq ((b64encodeBytes l).map b64urlReplace)

/-- Value of a base64 or base64url character byte (0 for foreign bytes). -/
def b64val (c : Nat) : Nat :=
  if 65 ≤ c ∧ c ≤ 90 then c - 65
  else if 97 ≤ c ∧ c ≤ 122 then c - 71
  else if 48 ≤ c ∧ c ≤ 57 then c + 4
  else if c = 43 ∨ c = 45 then 62
  else if c = 47 ∨ c = 95 then 63
  else 0

/-- Is this byte a base64 or base64url alphabet character? -/
def isB64Digit (c : Nat) : Bool :=
  (65 ≤ c && c ≤ 90) || (97 ≤ c && c ≤ 122) || (48 ≤ c && c ≤ 57) ||
  c == 43 || c == 45 || c == 47 || c == 95

/-- Decode a padding-free base64 value stream four characters at a time. -/
def b64decodeVals : List Nat → List Nat
  | c1 :: c2 :: c3 :: c4 :: rest =>
    (b64val c1 * 4 + b64val c2 / 16) :: (b64val c2 % 16 * 16 + b64val c3 / 4) ::
    (b64val c3 % 4 * 64 + b64val c4) :: b64decodeVals rest
  | [c1, c2] => [b64val c1 * 4 + b64val c2 / 16]
  | [c1, c2, c3] => [b64val c1 * 4 + b64val c2 / 16, b64val c2 % 16 * 16 + b64val c3 / 4]
  | _ => []

/-- Decode base64 or base64url text (given as byte values) back to bytes,
ignoring foreign bytes as Buffer.from does. -/
def base64urlDecode (l : List Nat) : List Nat := b64decodeVals (l.filter isB64Digit)

/-- Every entry is a byte. -/
def allBytes (l : List Nat) : Prop := ∀ b ∈ l, b < 256

/- ===== data model ===== -/

/-- The stored token bundle (google-token.json) as read by getGmailClient. -/
structure TokenBundle where
  refresh_token : Option String
  access_token : Option String
  expiry_date : Option Nat
  deriving DecidableEq

/-- The body of the tokens listener of getGmailClient lines 55-64: merge a
refresh response into the stored bundle, field by field, keeping each stored
field unless the response carries a truthy replacement. -/
def applyRefreshTokens (token tokens : TokenBundle) : TokenBundle :=
  { refresh_token :=
      if truthyStr tokens.refresh_token then tokens.refresh_token else token.refresh_token
    access_token :=
      if truthyStr tokens.access_token then tokens.access_token else token.access_token
    expiry_date :=
      if truthyNat tokens.expiry_date then tokens.expiry_date else token.expiry_date }

/-- One attachment descriptor of a send request. -/
structure Attachment where
  path : String
  filename : Option (List Nat) := none
  contentType : Option (List Nat) := none

/-- The argument object of an incoming tool call; absent fields are none. -/
structure ToolArgs where
  maxResults : Option Nat := none
  query : Option String := none
  labelIds : Option (List String) := none
  messageId : Option String := none
  messageIds : Option (List String) := none
  addLabelIds : Option (List String) := none
  removeLabelIds : Option (List String) := none
  name : Option String := none
  backgroundColor : Option String := none
  textColor : Option String := none
  labelId : Option String := none
  toAddr : Option (List Nat) := none
  subject : Option (List Nat) := none
  body : Option (List Nat) := none
  htmlBody : Option (List Nat) := none
  cc : Option (List Nat) := none
  bcc : Option (List Nat) := none
  replyTo : Option (List Nat) := none
  threadId : Option (List Nat) := none
  attachments : Option (List Attachment) := none

/-- Host environment: presence of the two credential files, the local file
system for attachments, and the nondeterministic boundary ingredients. -/
structure Env where
  credsPresent : Bool
  tokenPresent : Bool
  credentialsPath : String := "credentials/google-credentials.json"
  tokenPath : String := "credentials/google-token.json"
  files : String → Option (List Nat) := fun _ => none
  now : Nat := 0
  mixedRand : List Nat := []
  altRand : List Nat := []
  partRand : List Nat := []

/-- Parameters of a users.messages.list provider call. -/
structure ListParams where
  maxResults : Nat
  q : String
  labelIds : Option (List String)
  deriving DecidableEq

/-- A message reference returned by users.messages.list. -/
structure MsgRef where
  id : String
  threadId : String

/-- Response of users.messages.list. -/
structure ListResp where
  messages : List MsgRef
  resultSizeEstimate : Nat

/-- Response of a metadata-format users.messages.get. -/
structure MetaResp where
  headers : List (String × String)
  snippet : String

/-- A body part of a full message payload. -/
structure PayloadPart where
  mimeType : String
  data : Option (List Nat)

/-- Payload of a full-format message: headers, optional inline body data
(base64 text bytes), optional list of first-level parts. -/
structure FullPayload where
  headers : List (String × String)
  bodyData : Option (List Nat)
  parts : Option (List PayloadPart)

/-- Response of a full-format users.messages.get. -/
structure FullResp where
  id : String
  threadId : String
  payload : FullPayload
  labelIds : List String

/-- A Gmail label as returned by the provider. -/
structure LabelInfo where
  id : String
  name : String
  type : String

/-- The color object of a label create request; fields present only when set. -/
structure LabelColor where
  backgroundColor : Option String
  textColor : Option String

/-- The request body assembled by createLabel. -/
structure LabelBody where
  name : Option String
  labelListVisibility : String
  messageListVisibility : String
  color : Option LabelColor

/-- Response of users.messages.send. -/
structure SendResp where
  id : String
  threadId : String

/-- A provider call, recorded by the handlers in issue order. -/
inductive GCall where
  | messagesList (p : ListParams)
  | messagesGetMeta (id : String)
  | messagesGetFull (id : String)
  | messagesTrash (id : String)
  | messagesModify (id : String) (addLabelIds removeLabelIds : Option (List String))
  | messagesBatchModify (ids addLabelIds removeLabelIds : List String)
  | messagesSend (raw : List Nat) (threadId : Option (List Nat))
  | labelsList
  | labelsCreate (body : LabelBody)
  | labelsDelete (id : String)

/-- The provider oracle: the response each provider call would receive. -/
structure Oracle where
  listR : ListParams → Except String ListResp
  metaR : String → Except String MetaResp
  fullR : String → Except String FullResp
  trashR : String → Except String Unit
  modifyR : String → Option (List String) → Option (List String) → Except String Unit
  batchR : List String → List String → List String → Except String Unit
  sendR : List Nat → Option (List Nat) → Except String SendResp
  labelsR : Except String (List LabelInfo)
  createR : LabelBody → Except String LabelInfo
  deleteR : String → Except String Unit

/-- getGmailClient lines 38-44: fail if the credentials file is absent, then
fail if the token file is absent (pointing at the authorization script);
otherwise an authorized client is available. -/
def getGmailClient (env : Env) : Except String Unit :=
  if env.credsPresent = false then
    Except.error ("Credentials file not found: " ++ env.credentialsPath)
  else if env.tokenPresent = false then
    Except.error ("Token file not found: " ++ env.tokenPath ++
      ". Please run scripts/google-auth.js to authenticate.")
  else Except.ok ()

/-- The header lookup of listEmails and getEmail: first header of that name,
empty string when absent or empty. -/
def getHeader (headers : List (String × String)) (name : String) : String :=
  match headers.find? (fun h => h.1 == name) with
  | some h => h.2
  | none => ""

/-- One summary entry assembled by the listEmails loop. -/
structure EmailSummary where
  id : String
  threadId : String
  fromAddr : String
  subject : String
  date : String
  snippet : String

/-- Result of listEmails. -/
structure ListResult where
  emails : List EmailSummary
  totalResults : Nat

/-- The metadata-fetch loop of listEmails lines 100-119: one
users.messages.get per summary, failing the whole call on the first error. -/
def fetchMetas (o : Oracle) : List MsgRef → Except String (List EmailSummary) × List GCall
  | [] => (Except.ok [], [])
  | m :: rest =>
    match o.metaR m.id with
    | Except.error e => (Except.error e, [GCall.messagesGetMeta m.id])
    | Except.ok d =>
      match fetchMetas o rest with
      | (Except.ok l, calls) =>
        (Except.ok
          ({ id := m.id, threadId := m.threadId,
             fromAddr := getHeader d.headers "From",
             subject := getHeader d.headers "Subject",
             date := getHeader d.headers "Date",
             snippet := d.snippet } :: l),
         GCall.messagesGetMeta m.id :: calls)
      | (Except.error e, calls) => (Except.error e, GCall.messagesGetMeta m.id :: calls)

/-- listEmails lines 86-122: defaults maxResults 10, query empty, labels INBOX;
one list call, then one metadata fetch per returned message. -/
def listEmails (args : ToolArgs) (env : Env) (o : Oracle) :
    Except String ListResult × List GCall :=
  let maxResults := args.maxResults.getD 10
  let query := args.query.getD ""
  let labelIds := args.labelIds.getD ["INBOX"]
  match getGmailClient env with
  | Except.error e => (Except.error e, [])
  | Except.ok _ =>
    let p : ListParams := { maxResults := maxResults, q := query, labelIds := some labelIds }
    match o.listR p with
    | Except.error e => (Except.error e, [GCall.messagesList p])
    | Except.ok resp =>
      match fetchMetas o resp.messages with
      | (Except.ok emails, calls) =>
        (Except.ok { emails := emails, totalResults := resp.resultSizeEstimate },
         GCall.messagesList p :: calls)
      | (Except.error e, calls) => (Except.error e, GCall.messagesList p :: calls)

/-- searchEmails lines 162-165: list with the label filter cleared, the query
forwarded verbatim, and a default cap of 20. -/
def searchEmails (args : ToolArgs) (env : Env) (o : Oracle) :
    Except String ListResult × List GCall :=
  let query := args.query
  let maxResults := args.maxResults.getD 20
  listEmails { query := query, maxResults := some maxResults, labelIds := some [] } env o

/-- Result of getEmail. -/
structure EmailResult where
  id : String
  threadId : String
  fromAddr : String
  toAddr : String
  subject : String
  date : String
  body : List Nat
  labels : List String

/-- The body-extraction policy of getEmail lines 138-148: prefer inline body
data; otherwise the first first-level text/plain part; otherwise empty. -/
def extractBody (payload : FullPayload) : List Nat :=
  if truthyBytes payload.bodyData then base64urlDecode (payload.bodyData.getD [])
  else
    match payload.parts with
    | some parts =>
      match parts.find? (fun p => p.mimeType == "text/plain") with
      | some tp => if truthyBytes tp.data then base64urlDecode (tp.data.getD []) else []
      | none => []
    | none => []

/-- getEmail lines 124-160: one full-format fetch; the decoded body is cut to
its first 5000 units. -/
def getEmail (args : ToolArgs) (env : Env) (o : Oracle) :
    Except String EmailResult × List GCall :=
  let messageId := args.messageId.getD ""
  match getGmailClient env with
  | Except.error e => (Except.error e, [])
  | Except.ok _ =>
    match o.fullR messageId with
    | Except.error e => (Except.error e, [GCall.messagesGetFull messageId])
    | Except.ok resp =>
      (Except.ok
         { id := resp.id, threadId := resp.threadId,
           fromAddr := getHeader resp.payload.headers "From",
           toAddr := getHeader resp.payload.headers "To",
           subject := getHeader resp.payload.headers "Subject",
           date := getHeader resp.payload.headers "Date",
           body := (extractBody resp.payload).take 5000,
           labels := resp.labelIds },
       [GCall.messagesGetFull messageId])

/-- getUnreadCount lines 167-179: one list call with the unread query. -/
def getUnreadCount (env : Env) (o : Oracle) : Except String Nat × List GCall :=
  match getGmailClient env with
  | Except.error e => (Except.error e, [])
  | Except.ok _ =>
    let p : ListParams := { maxResults := 1, q := "is:unread", labelIds := none }
    match o.listR p with
    | Except.error e => (Except.error e, [GCall.messagesList p])
    | Except.ok resp => (Except.ok resp.resultSizeEstimate, [GCall.messagesList p])

/-- listLabels lines 181-195. -/
def listLabels (env : Env) (o : Oracle) : Except String (List LabelInfo) × List GCall :=
  match getGmailClient env with
  | Except.error e => (Except.error e, [])
  | Except.ok _ =>
    match o.labelsR with
    | Except.error e => (Except.error e, [GCall.labelsList])
    | Except.ok ls => (Except.ok ls, [GCall.labelsList])

/-- One per-item outcome entry of a bulk operation. -/
structure ItemResult where
  id : String
  status : String
  error : Option String
  deriving DecidableEq

/-- Result of trashEmails. -/
structure TrashResult where
  trashed : Nat
  results : List ItemResult
  deriving DecidableEq

/-- Result of markAsRead. -/
structure MarkResult where
  marked : Nat
  results : List ItemResult
  deriving DecidableEq

/-- Result of modifyEmailLabels. -/
structure ModifyResult where
  modified : Nat
  results : List ItemResult
  deriving DecidableEq

/-- The per-item loop of trashEmails lines 202-212. -/
def trashLoop (o : Oracle) : List String → List ItemResult × List GCall
  | [] => ([], [])
  | id :: rest =>
    let tail := trashLoop o rest
    match o.trashR id with
    | Except.ok _ =>
      ({ id := id, status := "trashed", error := none } :: tail.1,
       GCall.messagesTrash id :: tail.2)
    | Except.error e =>
      ({ id := id, status := "error", error := some e } :: tail.1,
       GCall.messagesTrash id :: tail.2)

/-- trashEmails lines 197-215: independent per-item calls, errors collected,
success count reported beside the full outcome list. -/
def trashEmails (args : ToolArgs) (env : Env) (o : Oracle) :
    Except String TrashResult × List GCall :=
  match getGmailClient env with
  | Except.error e => (Except.error e, [])
  | Except.ok _ =>
    match args.messageIds with
    | none => (Except.error "messageIds is not iterable", [])
    | some ids =>
      let r := trashLoop o ids
      (Except.ok { trashed := (r.1.filter (fun x => x.status == "trashed")).length,
                   results := r.1 }, r.2)

/-- The per-item loop of markAsRead lines 222-235. -/
def markLoop (o : Oracle) : List String → List ItemResult × List GCall
  | [] => ([], [])
  | id :: rest =>
    let tail := markLoop o rest
    match o.modifyR id none (some ["UNREAD"]) with
    | Except.ok _ =>
      ({ id := id, status := "marked_read", error := none } :: tail.1,
       GCall.messagesModify id none (some ["UNREAD"]) :: tail.2)
    | Except.error e =>
      ({ id := id, status := "error", error := some e } :: tail.1,
       GCall.messagesModify id none (some ["UNREAD"]) :: tail.2)

/-- markAsRead lines 217-238. -/
def markAsRead (args : ToolArgs) (env : Env) (o : Oracle) :
    Except String MarkResult × List GCall :=
  match getGmailClient env with
  | Except.error e => (Except.error e, [])
  | Except.ok _ =>
    match args.messageIds with
    | none => (Except.error "messageIds is not iterable", [])
    | some ids =>
      let r := markLoop o ids
      (Except.ok { marked := (r.1.filter (fun x => x.status == "marked_read")).length,
                   results := r.1 }, r.2)

/-- createLabel lines 240-267: color object present only when a color is given,
each color field present only when given. -/
def createLabel (args : ToolArgs) (env : Env) (o : Oracle) :
    Except String LabelInfo × List GCall :=
  match getGmailClient env with
  | Except.error e => (Except.error e, [])
  | Except.ok _ =>
    let labelBody : LabelBody :=
      { name := args.name, labelListVisibility := "labelShow",
        messageListVisibility := "show",
        color :=
          if truthyStr args.backgroundColor || truthyStr args.textColor then
            some { backgroundColor :=
                     if truthyStr args.backgroundColor then args.backgroundColor else none,
                   textColor :=
                     if truthyStr args.textColor then args.textColor else none }
          else none }
    match o.createR labelBody with
    | Except.error e => (Except.error e, [GCall.labelsCreate labelBody])
    | Except.ok l => (Except.ok l, [GCall.labelsCreate labelBody])

/-- deleteLabel lines 269-279. -/
def deleteLabel (args : ToolArgs) (env : Env) (o : Oracle) :
    Except String String × List GCall :=
  match getGmailClient env with
  | Except.error e => (Except.error e, [])
  | Except.ok _ =>
    let labelId := args.labelId.getD ""
    match o.deleteR labelId with
    | Except.error e => (Except.error e, [GCall.labelsDelete labelId])
    | Except.ok _ => (Except.ok labelId, [GCall.labelsDelete labelId])

/-- The per-item loop of modifyEmailLabels lines 285-300. -/
def modifyLoop (o : Oracle) (addIds removeIds : List String) :
    List String → List ItemResult × List GCall
  | [] => ([], [])
  | id :: rest =>
    let tail := modifyLoop o addIds removeIds rest
    match o.modifyR id (some addIds) (some removeIds) with
    | Except.ok _ =>
      ({ id := id, status := "modified", error := none } :: tail.1,
       GCall.messagesModify id (some addIds) (some removeIds) :: tail.2)
    | Except.error e =>
      ({ id := id, status := "error", error := some e } :: tail.1,
       GCall.messagesModify id (some addIds) (some removeIds) :: tail.2)

/-- modifyEmailLabels lines 281-306. -/
def modifyEmailLabels (args : ToolArgs) (env : Env) (o : Oracle) :
    Except String ModifyResult × List GCall :=
  match getGmailClient env with
  | Except.error e => (Except.error e, [])
  | Except.ok _ =>
    match args.messageIds with
    | none => (Except.error "messageIds is not iterable", [])
    | some ids =>
      let addIds := args.addLabelIds.getD []
      let removeIds := args.removeLabelIds.getD []
      let r := modifyLoop o addIds removeIds ids
      (Except.ok { modified := (r.1.filter (fun x => x.status == "modified")).length,
                   results := r.1 }, r.2)

/-- Result of batchModifyLabels. -/
structure BatchModifyResult where
  success : Bool
  count : Nat
  addedLabels : List String
  removedLabels : List String
  deriving DecidableEq

/-- batchModifyLabels lines 308-328: one provider-level batch call for the
whole identifier list. -/
def batchModifyLabels (args : ToolArgs) (env : Env) (o : Oracle) :
    Except String BatchModifyResult × List GCall :=
  match getGmailClient env with
  | Except.error e => (Except.error e, [])
  | Except.ok _ =>
    let ids := args.messageIds.getD []
    let addIds := args.addLabelIds.getD []
    let removeIds := args.removeLabelIds.getD []
    match o.batchR ids addIds removeIds with
    | Except.error e => (Except.error e, [GCall.messagesBatchModify ids addIds removeIds])
    | Except.ok _ =>
      (Except.ok { success := true, count := ids.length,
                   addedLabels := addIds, removedLabels := removeIds },
       [GCall.messagesBatchModify ids addIds removeIds])

/-- Result of sendEmail. -/
structure SendResult where
  success : Bool
  messageId : String
  threadId : String
  toAddr : List Nat
  subject : List Nat
  attachmentsCount : Nat

/-- Remainder after the first GT byte, if any (helper for the tag regex). -/
def findGt : List Nat → Option (List Nat)
  | [] => none
  | c :: rest => if c = 62 then some rest else findGt rest

/-- Fuel-bounded worker for stripTags. -/
def stripTagsAux : Nat → List Nat → List Nat
  | 0, l => l
  | fuel + 1, l =>
    match l with
    | [] => []
    | c :: rest =>
      if c = 60 then
        match findGt rest with
        | some after => stripTagsAux fuel after
        | none => c :: stripTagsAux fuel rest
      else c :: stripTagsAux fuel rest

/-- The global tag-removing replace of sendEmail lines 370 and 417: drop every
LT ... GT block, leftmost first. -/
def stripTags (l : List Nat) : List Nat := stripTagsAux l.length l

/-- The final path segment, modelling path.split on slash then pop. -/
def lastSegment (p : String) : List Nat := ascii ((p.splitOn "/").getLastD "")

/-- The mixed-multipart boundary of sendEmail line 356 (time and random suffix
come from the environment). -/
def mixedBoundary (env : Env) : List Nat :=
  ascii "----=_Mixed_" ++ ascii (toString env.now) ++ ascii "_" ++ env.mixedRand

/-- The alternative-multipart boundary of sendEmail line 362. -/
def altBoundary (env : Env) : List Nat :=
  ascii "----=_Alternative_" ++ ascii (toString env.now) ++ ascii "_" ++ env.altRand

/-- The plain multipart boundary of sendEmail line 409. -/
def partBoundary (env : Env) : List Nat :=
  ascii "----=_Part_" ++ ascii (toString env.now) ++ ascii "_" ++ env.partRand

/-- The header lines assembled by sendEmail lines 339-347, in order; optional
headers appear exactly when their argument is truthy. -/
def emailHeaders (args : ToolArgs) : List (List Nat) :=
  [ascii "To: " ++ args.toAddr.getD [], ascii "Subject: " ++ args.subject.getD []]
  ++ (if truthyBytes args.cc then [ascii "Cc: " ++ args.cc.getD []] else [])
  ++ (if truthyBytes args.bcc then [ascii "Bcc: " ++ args.bcc.getD []] else [])
  ++ (if truthyBytes args.replyTo then [ascii "Reply-To: " ++ args.replyTo.getD []] else [])
  ++ (if truthyBytes args.threadId then [ascii "In-Reply-To: " ++ args.threadId.getD []] else [])

/-- headers.join with CRLF followed by one CRLF, sendEmail line 350. -/
def headerJoin (args : ToolArgs) : List Nat := interc crlf (emailHeaders args) ++ crlf

/-- The effective MIME type of an attachment, line 396. -/
def attMime (a : Attachment) : List Nat :=
  if truthyBytes a.contentType then a.contentType.getD []
  else ascii "application/octet-stream"

/-- The effective filename of an attachment, line 397. -/
def attFilename (a : Attachment) : List Nat :=
  if truthyBytes a.filename then a.filename.getD [] else lastSegment a.path

/-- The header block of one attachment part, lines 400-402. -/
def attHeader (a : Attachment) : List Nat :=
  ascii "Content-Type: " ++ attMime a ++ crlf ++
  ascii "Content-Disposition: attachment; filename=" ++ [34] ++ attFilename a ++ [34] ++ crlf ++
  ascii "Content-Transfer-Encoding: base64"

/-- The full content of one attachment part (after the boundary line),
lines 400-403: headers, blank line, base64 content, blank line. -/
def attChunk (a : Attachment) (content : List Nat) : List Nat :=
  attHeader a ++ crlf2 ++ b64encodeBytes content ++ crlf2

/-- The attachment loop of sendEmail lines 387-404: check each file exists,
then append a boundary line and the encoded part; first missing file aborts. -/
def buildAttachments (env : Env) (mb : List Nat) : List Attachment → Except String (List Nat)
  | [] => Except.ok []
  | a :: rest =>
    match env.files a.path with
    | none => Except.error ("Attachment file not found: " ++ a.path)
    | some content =>
      match buildAttachments env mb rest with
      | Except.error e => Except.error e
      | Except.ok tail => Except.ok (dd ++ mb ++ crlf ++ attChunk a content ++ tail)

/-- The header line naming the alternative boundary, line 364. -/
def altHeaderLine (env : Env) : List Nat :=
  ascii "Content-Type: multipart/alternative; boundary=" ++ [34] ++ altBoundary env ++ [34]

/-- The multipart/alternative body part of sendEmail lines 361-378, up to and
including the closing alternative boundary line (the extra blank line that
follows it in the message is appended by the caller).  Note line 370 of the
source: when a plain body is present it is appended with no trailing line
break (the alternative of the JavaScript OR binds the CRLF pair to the
stripped HTML only). -/
def altChunk (args : ToolArgs) (env : Env) : List Nat :=
  let ab := altBoundary env
  altHeaderLine env ++ crlf2 ++
  dd ++ ab ++ crlf ++
  ascii "Content-Type: text/plain; charset=UTF-8" ++ crlf ++
  ascii "Content-Transfer-Encoding: 7bit" ++ crlf2 ++
  (if truthyBytes args.body then args.body.getD []
   else stripTags (args.htmlBody.getD []) ++ crlf2) ++
  dd ++ ab ++ crlf ++
  ascii "Content-Type: text/html; charset=UTF-8" ++ crlf ++
  ascii "Content-Transfer-Encoding: 7bit" ++ crlf2 ++
  args.htmlBody.getD [] ++ crlf2 ++
  dd ++ ab ++ dd ++ crlf

/-- The header block of the mixed message before the first blank line:
joined recipient headers, MIME-Version, and the mixed Content-Type line. -/
def mixedHeaderPre (args : ToolArgs) : List Nat :=
  headerJoin args ++ ascii "MIME-Version: 1.0" ++ crlf

/-- The Content-Type lead-in whose quoted value is the mixed boundary. -/
def ctMixedPat : List Nat := ascii "Content-Type: multipart/mixed; boundary=" ++ [34]

/-- Full header block of the mixed message (everything before CRLF CRLF). -/
def mixedHeaderBlock (args : ToolArgs) (env : Env) : List Nat :=
  mixedHeaderPre args ++ ctMixedPat ++ mixedBoundary env ++ [34]

/-- The body part carrying the message text in the attachments branch:
either the alternative multipart (lines 361-378) or a bare text/plain part
(lines 380-384), each followed through the source's trailing blank line. -/
def mixedTextPart (args : ToolArgs) (env : Env) : List Nat :=
  if truthyBytes args.htmlBody then altChunk args env ++ crlf
  else
    ascii "Content-Type: text/plain; charset=UTF-8" ++ crlf ++
    ascii "Content-Transfer-Encoding: 7bit" ++ crlf2 ++
    args.body.getD [] ++ crlf2

/-- The whole multipart/mixed message of sendEmail lines 354-406, given the
already-built attachment section. -/
def mixedEmailWith (args : ToolArgs) (env : Env) (attBytes : List Nat) : List Nat :=
  mixedHeaderBlock args env ++ crlf2 ++
  dd ++ mixedBoundary env ++ crlf ++
  mixedTextPart args env ++ attBytes ++
  dd ++ mixedBoundary env ++ dd ++ crlf

/-- The multipart/mixed message with its attachment section resolved from the
environment (the value buildEmail returns when every attachment file exists). -/
def mixedEmail (args : ToolArgs) (env : Env) : List Nat :=
  mixedEmailWith args env
    (List.flatten ((args.attachments.getD []).map
      (fun a => dd ++ mixedBoundary env ++ crlf ++ attChunk a ((env.files a.path).getD []))))

/-- Message assembly of sendEmail lines 338-431: attachments branch
(multipart/mixed), HTML branch (multipart/alternative), plain branch. -/
def buildEmail (args : ToolArgs) (env : Env) : Except String (List Nat) :=
  let hasAttachments := match args.attachments with
    | some l => !l.isEmpty
    | none => false
  if hasAttachments then
    match buildAttachments env (mixedBoundary env) (args.attachments.getD []) with
    | Except.error e => Except.error e
    | Except.ok attBytes => Except.ok (mixedEmailWith args env attBytes)
  else if truthyBytes args.htmlBody then
    let pb := partBoundary env
    Except.ok
      (headerJoin args ++ ascii "MIME-Version: 1.0" ++ crlf ++
       ascii "Content-Type: multipart/alternative; boundary=" ++ [34] ++ pb ++ [34] ++ crlf2 ++
       dd ++ pb ++ crlf ++
       ascii "Content-Type: text/plain; charset=UTF-8" ++ crlf ++
       ascii "Content-Transfer-Encoding: 7bit" ++ crlf2 ++
       (if truthyBytes args.body then args.body.getD []
        else stripTags (args.htmlBody.getD []) ++ crlf2) ++
       dd ++ pb ++ crlf ++
       ascii "Content-Type: text/html; charset=UTF-8" ++ crlf ++
       ascii "Content-Transfer-Encoding: 7bit" ++ crlf2 ++
       args.htmlBody.getD [] ++ crlf2 ++
       dd ++ pb ++ dd ++ crlf)
  else
    Except.ok
      (headerJoin args ++
       ascii "Content-Type: text/plain; charset=UTF-8" ++ crlf ++
       ascii "Content-Transfer-Encoding: 7bit" ++ crlf2 ++
       args.body.getD [])

/-- The threadId forwarded in the provider send request body, line 444:
the argument when truthy, otherwise absent. -/
def sendThreadParam (args : ToolArgs) : Option (List Nat) :=
  if truthyBytes args.threadId then args.threadId else none

/-- sendEmail lines 330-456: client acquisition, precondition check, message
assembly, envelope encoding, one provider send call. -/
def sendEmail (args : ToolArgs) (env : Env) (o : Oracle) :
    Except String SendResult × List GCall :=
  match getGmailClient env with
  | Except.error e => (Except.error e, [])
  | Except.ok _ =>
    if !truthyBytes args.toAddr || !truthyBytes args.subject ||
       (!truthyBytes args.body && !truthyBytes args.htmlBody) then
      (Except.error "to, subject, and body (or htmlBody) are required", [])
    else
      match buildEmail args env with
      | Except.error e => (Except.error e, [])
      | Except.ok email =>
        let encodedMessage := base64urlEncode email
        let tid := sendThreadParam args
        match o.sendR encodedMessage tid with
        | Except.error e => (Except.error e, [GCall.messagesSend encodedMessage tid])
        | Except.ok resp =>
          (Except.ok
             { success := true, messageId := resp.id, threadId := resp.threadId,
               toAddr := args.toAddr.getD [], subject := args.subject.getD [],
               attachmentsCount :=
                 match args.attachments with
                 | some l => if !l.isEmpty then l.length else 0
                 | none => 0 },
           [GCall.messagesSend encodedMessage tid])

/-- A structured handler result, wrapped as a textual payload by the dispatcher. -/
inductive ResultVal where
  | listR (r : ListResult)
  | emailR (r : EmailResult)
  | unreadR (n : Nat)
  | labelsR (ls : List LabelInfo)
  | trashR (r : TrashResult)
  | markR (r : MarkResult)
  | createR (l : LabelInfo)
  | deleteR (labelId : String)
  | modifyR (r : ModifyResult)
  | batchR (r : BatchModifyResult)
  | sendR (r : SendResult)

/-- The text or structured payload of a tool response. -/
inductive Payload where
  | json (v : ResultVal)
  | text (s : String)

/-- The response handed back to the transport for one tool call. -/
structure ToolResponse where
  payload : Payload
  isError : Bool

/-- The declared tool names of the registry, lines 464-677. -/
def toolNames : List String :=
  ["list_emails", "get_email", "search_emails", "get_unread_count", "list_labels",
   "trash_emails", "mark_as_read", "create_label", "delete_label",
   "modify_email_labels", "batch_modify_labels", "send_email"]

/-- The switch of the call handler, lines 685-724. -/
def dispatchTool (name : String) (args : ToolArgs) (env : Env) (o : Oracle) :
    Except String ResultVal :=
  match name with
  | "list_emails" => (listEmails args env o).1.map ResultVal.listR
  | "get_email" => (getEmail args env o).1.map ResultVal.emailR
  | "search_emails" => (searchEmails args env o).1.map ResultVal.listR
  | "get_unread_count" => (getUnreadCount env o).1.map ResultVal.unreadR
  | "list_labels" => (listLabels env o).1.map ResultVal.labelsR
  | "trash_emails" => (trashEmails args env o).1.map ResultVal.trashR
  | "mark_as_read" => (markAsRead args env o).1.map ResultVal.markR
  | "create_label" => (createLabel args env o).1.map ResultVal.createR
  | "delete_label" => (deleteLabel args env o).1.map ResultVal.deleteR
  | "modify_email_labels" => (modifyEmailLabels args env o).1.map ResultVal.modifyR
  | "batch_modify_labels" => (batchModifyLabels args env o).1.map ResultVal.batchR
  | "send_email" => (sendEmail args env o).1.map ResultVal.sendR
  | _ => Except.error ("Unknown tool: " ++ name)

/-- Is `pat` a contiguous substring of `s`? -/
def containsSub (s pat : String) : Bool := containsSeq (ascii pat) (ascii s)

/-- The special-cased error-message rewriting of the catch block, lines
730-737 (the numeric 401 code of the source is carried in the message text
in this embedding). -/
def rewriteErrorMessage (msg : String) : String :=
  if containsSub msg "invalid_grant" || containsSub msg "invalid_token" then
    "Gmail authentication expired. Please run \x27node scripts/google-auth.js\x27 to re-authenticate. Original error: " ++ msg
  else if containsSub msg "Credentials file not found" ||
          containsSub msg "Token file not found" then msg
  else msg

/-- The uniform catch layer of the dispatcher, lines 679-744: successes become
textual JSON payloads, failures become error-flagged textual payloads and are
never re-thrown to the transport. -/
def handleCall (name : String) (args : ToolArgs) (env : Env) (o : Oracle) : ToolResponse :=
  match dispatchTool name args env o with
  | Except.ok v => { payload := Payload.json v, isError := false }
  | Except.error msg =>
    { payload := Payload.text ("Error: " ++ rewriteErrorMessage msg), isError := true }

/-- The text of a textual payload (empty for structured payloads). -/
def responseText (r : ToolResponse) : String :=
  match r.payload with
  | Payload.text s => s
  | Payload.json _ => ""

/- ===== an RFC 2045 style top-level multipart reader (for the round-trip claim) ===== -/

/-- Take bytes up to (excluding) the first occurrence of `b`. -/
def takeUntilByte (b : Nat) (l : List Nat) : List Nat := l.takeWhile (fun c => !(c == b))

/-- Read the quoted boundary value of the multipart/mixed Content-Type header. -/
def extractBoundary (hdr : List Nat) : Option (List Nat) :=
  match breakOnSeq ctMixedPat hdr with
  | none => none
  | some (_, after) => some (takeUntilByte 34 after)

/-- Does a part declare type multipart/alternative (first header line)? -/
def isAlternativePart (part : List Nat) : Bool :=
  List.isPrefixOf (ascii "Content-Type: multipart/alternative") part

/-- Does the header block of a part declare an attachment disposition? -/
def isAttachmentPart (part : List Nat) : Bool :=
  match breakOnSeq crlf2 part with
  | some (hdrs, _) => containsSeq (ascii "Content-Disposition: attachment") hdrs
  | none => false

/-- Parse a multipart/mixed message at top level: split headers from body at
the first blank line, read the declared boundary, require the body to open
with the first boundary line, split the remainder on the line-leading
delimiter, and require a terminating closing delimiter.  Returns the list of
parts (each part carries its own headers and content). -/
def parseMixed (msg : List Nat) : Option (List (List Nat)) :=
  match breakOnSeq crlf2 msg with
  | none => none
  | some (hdr, bodyBlock) =>
    match extractBoundary hdr with
    | none => none
    | some mb =>
      if List.isPrefixOf (dd ++ mb ++ crlf) bodyBlock then
        let rest := bodyBlock.drop (dd ++ mb ++ crlf).length
        match splitOnSeq (crlf ++ dd ++ mb) rest with
        | [] => none
        | p1 :: tl =>
          if tl.isEmpty then none
          else if (tl.getLastD [] == dd ++ crlf) &&
                  tl.dropLast.all (fun p => List.isPrefixOf crlf p) then
            some (p1 :: tl.dropLast.map (fun p => p.drop 2))
          else none
      else none

/-- Did the call succeed? -/
def isOkB {α : Type} : Except String α → Bool
  | Except.ok _ => true
  | Except.error _ => false

/- ===== concrete fixtures used by the witnesses ===== -/

/-- An environment with both credential files present. -/
def envReady : Env := { credsPresent := true, tokenPresent := true }

/-- An environment with credentials present but the token file absent. -/
def envNoToken : Env := { credsPresent := true, tokenPresent := false }

/-- An oracle whose every call succeeds with a fixed benign response. -/
def oracle0 : Oracle :=
  { listR := fun _ => Except.ok { messages := [], resultSizeEstimate := 0 },
    metaR := fun _ => Except.ok { headers := [], snippet := "" },
    fullR := fun _ => Except.ok
      { id := "m1", threadId := "t1",
        payload := { headers := [], bodyData := none, parts := none }, labelIds := [] },
    trashR := fun _ => Except.ok (),
    modifyR := fun _ _ _ => Except.ok (),
    batchR := fun _ _ _ => Except.ok (),
    sendR := fun _ _ => Except.ok { id := "m1", threadId := "t1" },
    labelsR := Except.ok [],
    createR := fun _ => Except.ok { id := "L1", name := "n", type := "user" },
    deleteR := fun _ => Except.ok () }

/-- An oracle that fails the per-item trash and modify calls for message b only. -/
def oracleFailB : Oracle :=
  { oracle0 with
    trashR := fun id => if id == "b" then Except.error "boom" else Except.ok (),
    modifyR := fun id _ _ => if id == "b" then Except.error "boom" else Except.ok () }

/-- An oracle whose batch-modify call fails. -/
def oracleBatchFail : Oracle :=
  { oracle0 with batchR := fun _ _ _ => Except.error "batch boom" }

/-- A full-message response whose encoded body decodes to 5001 zero bytes. -/
def fullResp5001 : FullResp :=
  { id := "m1", threadId := "t1",
    payload := { headers := [], bodyData := some (List.replicate 6668 65), parts := none },
    labelIds := [] }

/-- A full-message response whose encoded body decodes to 5000 zero bytes. -/
def fullResp5000 : FullResp :=
  { id := "m1", threadId := "t1",
    payload := { headers := [], bodyData := some (List.replicate 6667 65), parts := none },
    labelIds := [] }

/-- A concrete send request with plain body, HTML body and one attachment. -/
def sendArgsW : ToolArgs :=
  { toAddr := some (ascii "a@b"), subject := some (ascii "s"),
    body := some (ascii "hi"), htmlBody := some (ascii "<b>hi</b>"),
    attachments := some [{ path := "/f.bin", filename := some (ascii "f.bin") }] }

/-- A concrete environment for the send witness: both files present, one
attachment file on disk, fixed time and random suffixes. -/
def sendEnvW : Env :=
  { credsPresent := true, tokenPresent := true,
    files := fun p => if p == "/f.bin" then some [1, 2, 3] else none,
    now := 1, mixedRand := ascii "mr", altRand := ascii "ar", partRand := ascii "pr" }

/-- A concrete send request carrying a thread reference. -/
def argsThreadW : ToolArgs :=
  { toAddr := some (ascii "a@b"), subject := some (ascii "s"),
    body := some (ascii "hi"), threadId := some (ascii "TID123") }

/-- A concrete send request with no thread reference. -/
def argsNoThreadW : ToolArgs :=
  { toAddr := some (ascii "a@b"), subject := some (ascii "s"), body := some (ascii "hi") }

/-- The per-item outcome entry shared by the three bulk loops: a success entry
with the loop's success status, or an error entry carrying the message. -/
def perItemEntry (call : String → Except String Unit) (okStatus : String)
    (id : String) : ItemResult :=
  match call id with
  | Except.ok _ => { id := id, status := okStatus, error := none }
  | Except.error e => { id := id, status := "error", error := some e }

/-- The line-leading boundary delimiter of the mixed message: CRLF, two
dashes, the mixed boundary. -/
def mixedSep (env : Env) : List Nat := crlf ++ dd ++ mixedBoundary env

/-- The content of an attachment part as delimited by the surrounding
boundary lines: headers, blank line, base64 text and the one CR LF that is
not consumed by the following delimiter. -/
def attCore (a : Attachment) (content : List Nat) : List Nat :=
  attHeader a ++ crlf2 ++ b64encodeBytes content ++ crlf

/-- The result record getEmail builds from a full-format response. -/
def emailResultOf (resp : FullResp) : EmailResult where
  id := resp.id
  threadId := resp.threadId
  fromAddr := getHeader resp.payload.headers "From"
  toAddr := getHeader resp.payload.headers "To"
  subject := getHeader resp.payload.headers "Subject"
  date := getHeader resp.payload.headers "Date"
  body := (extractBody resp.payload).take 5000
  labels := resp.labelIds

/-- The result record trashEmails builds for a given identifier list. -/
def trashResultOf (o : Oracle) (ids : List String) : TrashResult where
  trashed := ((ids.map (perItemEntry o.trashR "trashed")).filter
    (fun x => x.status == "trashed")).length
  results := ids.map (perItemEntry o.trashR "trashed")

/-- The result record markAsRead builds for a given identifier list. -/
def markResultOf (o : Oracle) (ids : List String) : MarkResult where
  marked := ((ids.map (perItemEntry
      (fun id => o.modifyR id none (some ["UNREAD"])) "marked_read")).filter
    (fun x => x.status == "marked_read")).length
  results := ids.map (perItemEntry
    (fun id => o.modifyR id none (some ["UNREAD"])) "marked_read")

/-- The result record modifyEmailLabels builds for a given identifier list. -/
def modifyResultOf (o : Oracle) (addIds removeIds : List String)
    (ids : List String) : ModifyResult where
  modified := ((ids.map (perItemEntry
      (fun id => o.modifyR id (some addIds) (some removeIds)) "modified")).filter
    (fun x => x.status == "modified")).length
  results := ids.map (perItemEntry
    (fun id => o.modifyR id (some addIds) (some removeIds)) "modified")

/- ===== sequence matching lemmas ===== -/

theorem containsSeq_iff (pat l : List Nat) :
    containsSeq pat l = true ↔ ∃ u v, l = u ++ pat ++ v := by
  induction l with
  | nil =>
    cases pat with
    | nil =>
      simp [containsSeq, List.isPrefixOf]
    | cons p ps =>
      simp [containsSeq, List.isPrefixOf]
  | cons x xs ih =>
    simp only [containsSeq, Bool.or_eq_true]
    constructor
    · rintro (h | h)
      · rcases List.isPrefixOf_iff_prefix.mp h with ⟨t, ht⟩
        exact ⟨[], t, by simpa using ht.symm⟩
      · rcases ih.mp h with ⟨u, v, huv⟩
        exact ⟨x :: u, v, by simp [huv]⟩
    · rintro ⟨u, v, huv⟩
      cases u with
      | nil =>
        left
        apply List.isPrefixOf_iff_prefix.mpr
        exact ⟨v, by simpa using huv.symm⟩
      | cons y u2 =>
        right
        apply ih.mpr
        refine ⟨u2, v, ?_⟩
        simp only [List.cons_append, List.cons.injEq] at huv
        exact huv.2

theorem breakOnSeq_eq_none (pat l : List Nat) (h : containsSeq pat l = false) :
    breakOnSeq pat l = none := by
  induction l with
  | nil =>
    simp only [containsSeq] at h
    simp [breakOnSeq, h]
  | cons x xs ih =>
    simp only [containsSeq, Bool.or_eq_false_iff] at h
    simp [breakOnSeq, h.1, ih h.2]

theorem take_append_self (p t : List Nat) : (p ++ t).take p.length = p := by
  rw [List.take_append_eq_append_take]
  simp

theorem prefix_of_append_left (p u v : List Nat) (h : p <+: u ++ v)
    (hl : p.length ≤ u.length) : p <+: u := by
  have h1 : p = (u ++ v).take p.length := by
    rcases h with ⟨t, ht⟩
    rw [← ht]
    exact (take_append_self p t).symm
  rw [h1, List.take_append_eq_append_take, Nat.sub_eq_zero_of_le hl]
  simp only [List.take_zero, List.append_nil]
  exact List.take_prefix _ _

theorem breakOnSeq_first (pat : List Nat) (hne : pat ≠ []) :
    ∀ a b : List Nat, noEarlyOcc pat a = true →
    breakOnSeq pat (a ++ pat ++ b) = some (a, b) := by
  intro a
  induction a with
  | nil =>
    intro b _
    rcases pat with _ | ⟨p, ps⟩
    · exact absurd rfl hne
    · have hpre : List.isPrefixOf (p :: ps) ((p :: ps) ++ b) = true :=
        List.isPrefixOf_iff_prefix.mpr ⟨b, rfl⟩
      simp only [List.nil_append, List.cons_append] at hpre ⊢
      simp only [breakOnSeq, hpre, if_true]
      have hdrop := List.drop_left (p :: ps) b
      simp only [List.cons_append] at hdrop
      rw [hdrop]
  | cons x a2 ih =>
    intro b h
    have hx : containsSeq pat ((x :: a2) ++ pat.dropLast) = false := by
      have hh := h
      simp only [noEarlyOcc, Bool.not_eq_true'] at hh
      exact hh
    have hearly : ∀ u : List Nat, pat <+: (x :: a2) ++ pat ++ u → False := by
      intro u hp
      have hlpos : 1 ≤ pat.length := List.length_pos.mpr hne
      have hlen : pat.length ≤ ((x :: a2) ++ pat.dropLast).length := by
        simp only [List.length_append, List.length_cons, List.length_dropLast]
        omega
      have hsplit : (x :: a2) ++ pat ++ u =
          ((x :: a2) ++ pat.dropLast) ++ (pat.getLast hne :: u) := by
        conv_lhs => rw [← List.dropLast_append_getLast hne]
        simp [List.append_assoc]
      rw [hsplit] at hp
      have hp2 : pat <+: (x :: a2) ++ pat.dropLast :=
        prefix_of_append_left _ _ _ hp hlen
      rcases hp2 with ⟨t, ht⟩
      have hcon : containsSeq pat ((x :: a2) ++ pat.dropLast) = true :=
        (containsSeq_iff _ _).mpr ⟨[], t, by simp [← ht]⟩
      rw [hcon] at hx
      cases hx
    have h2 : noEarlyOcc pat a2 = true := by
      simp only [List.cons_append, containsSeq, Bool.or_eq_false_iff] at hx
      simp only [noEarlyOcc, Bool.not_eq_true']
      exact hx.2
    have hrec : breakOnSeq pat (a2 ++ (pat ++ b)) = some (a2, b) := by
      simpa [List.append_assoc] using ih b h2
    have hnp : ¬ (pat <+: x :: (a2 ++ (pat ++ b))) := by
      intro hp
      exact hearly b (by simpa [List.append_assoc] using hp)
    show breakOnSeq pat (x :: (a2 ++ pat ++ b)) = some (x :: a2, b)
    simp [breakOnSeq, List.append_assoc, hnp, hrec]

theorem interc_length (pat : List Nat) (hne : pat ≠ []) (chunks : List (List Nat)) :
    chunks.length ≤ (interc pat chunks).length + 1 := by
  induction chunks with
  | nil => simp
  | cons c rest ih =>
    cases rest with
    | nil => simp [interc]
    | cons c2 r2 =>
      have hp : 1 ≤ pat.length := List.length_pos.mpr hne
      simp only [interc, List.length_append, List.length_cons] at ih ⊢
      omega

theorem splitOnSeqAux_interc (pat : List Nat) (hne : pat ≠ []) :
    ∀ chunks : List (List Nat), ∀ fuel : Nat, chunks ≠ [] → chunks.length ≤ fuel →
    (∀ c ∈ chunks.dropLast, noEarlyOcc pat c = true) →
    containsSeq pat (chunks.getLastD []) = false →
    splitOnSeqAux pat fuel (interc pat chunks) = chunks := by
  intro chunks
  induction chunks with
  | nil =>
    intro fuel hch
    exact absurd rfl hch
  | cons c rest ih =>
    intro fuel _ hfuel hdrop hlast
    cases rest with
    | nil =>
      cases fuel with
      | zero => simp at hfuel
      | succ f =>
        have hlast2 : containsSeq pat c = false := by
          simpa [List.getLastD] using hlast
        have hb : breakOnSeq pat c = none := breakOnSeq_eq_none _ _ hlast2
        simp [interc, splitOnSeqAux, hb]
    | cons c2 rest2 =>
      cases fuel with
      | zero => simp at hfuel
      | succ f =>
        have hc : noEarlyOcc pat c = true := by
          apply hdrop c
          show c ∈ (c :: c2 :: rest2).dropLast
          have hdl : (c :: c2 :: rest2).dropLast = c :: (c2 :: rest2).dropLast := rfl
          rw [hdl]
          exact List.mem_cons_self c _
        have hbreak := breakOnSeq_first pat hne c (interc pat (c2 :: rest2)) hc
        have hdrop2 : ∀ d ∈ (c2 :: rest2).dropLast, noEarlyOcc pat d = true := by
          intro d hd
          apply hdrop d
          show d ∈ (c :: c2 :: rest2).dropLast
          have hdl : (c :: c2 :: rest2).dropLast = c :: (c2 :: rest2).dropLast := rfl
          rw [hdl]
          exact List.mem_cons_of_mem c hd
        have hlast2 : containsSeq pat ((c2 :: rest2).getLastD []) = false := by
          simpa [List.getLastD] using hlast
        have hrec := ih f (by simp) (by simpa using Nat.le_of_succ_le_succ hfuel)
          hdrop2 hlast2
        show splitOnSeqAux pat (f + 1) (interc pat (c :: c2 :: rest2)) = c :: c2 :: rest2
        have hint : interc pat (c :: c2 :: rest2) = c ++ pat ++ interc pat (c2 :: rest2) := rfl
        rw [hint]
        simp only [splitOnSeqAux, hbreak, hrec]

theorem splitOnSeq_interc (pat : List Nat) (hne : pat ≠ []) (chunks : List (List Nat))
    (hch : chunks ≠ [])
    (hdrop : ∀ c ∈ chunks.dropLast, noEarlyOcc pat c = true)
    (hlast : containsSeq pat (chunks.getLastD []) = false) :
    splitOnSeq pat (interc pat chunks) = chunks := by
  apply splitOnSeqAux_interc pat hne chunks _ hch _ hdrop hlast
  have := interc_length pat hne chunks
  omega

theorem takeWhile_append_of_all (p : Nat → Bool) (u v : List Nat)
    (hu : ∀ x ∈ u, p x = true) :
    (u ++ v).takeWhile p = u ++ v.takeWhile p := by
  induction u with
  | nil => simp
  | cons x xs ih =>
    have hx : p x = true := hu x (List.mem_cons_self x xs)
    simp only [List.cons_append, List.takeWhile_cons, hx, if_true]
    rw [ih (fun y hy => hu y (List.mem_cons_of_mem x hy))]

/- ===== base64 lemmas ===== -/

theorem b64Alphabet_length : b64Alphabet.length = 64 := by decide

theorem b64digit_of_char (n : Nat) : isB64Digit (b64urlReplace (b64charN n)) = true := by
  by_cases h : n < 64
  · exact (by decide : ∀ m, m < 64 → isB64Digit (b64urlReplace (b64charN m)) = true) n h
  · have h64 : b64Alphabet.length ≤ n := by rw [b64Alphabet_length]; omega
    rw [b64charN, List.getD_eq_default _ _ h64]
    decide

theorem b64char_ne_61 (n : Nat) : (b64urlReplace (b64charN n) == 61) = false := by
  by_cases h : n < 64
  · exact (by decide : ∀ m, m < 64 → (b64urlReplace (b64charN m) == 61) = false) n h
  · have h64 : b64Alphabet.length ≤ n := by rw [b64Alphabet_length]; omega
    rw [b64charN, List.getD_eq_default _ _ h64]
    decide

theorem b64val_of_char (n : Nat) (h : n < 64) : b64val (b64urlReplace (b64charN n)) = n :=
  (by decide : ∀ m, m < 64 → b64val (b64urlReplace (b64charN m)) = m) n h

theorem b64urlReplace_61 : b64urlReplace 61 = 61 := by decide

theorem isB64Digit_61 : isB64Digit 61 = false := by decide

theorem stripTrailingEq_append (x m : List Nat) (hm : ∃ c ∈ m, (c == 61) = false) :
    stripTrailingEq (x ++ m) = x ++ stripTrailingEq m := by
  unfold stripTrailingEq
  rw [List.reverse_append, List.dropWhile_append]
  have hne : (m.reverse.dropWhile (fun c => c == 61)).isEmpty = false := by
    rcases hm with ⟨c, hc, hcne⟩
    rcases hdw : m.reverse.dropWhile (fun c => c == 61) with _ | ⟨y, ys⟩
    · have := List.dropWhile_eq_nil_iff.mp hdw c (by simpa using hc)
      rw [hcne] at this
      cases this
    · rfl
  rw [hne]
  simp [List.reverse_append]

theorem stripTrailingEq_of_no61 (x : List Nat) (hx : ∀ c ∈ x, (c == 61) = false) :
    stripTrailingEq x = x := by
  unfold stripTrailingEq
  rcases hrev : x.reverse with _ | ⟨c, t⟩
  · simp_all
  · have hcx : c ∈ x := by
      have : c ∈ x.reverse := by rw [hrev]; exact List.mem_cons_self c t
      simpa using this
    rw [List.dropWhile_cons, hx c hcx]
    simp only [Bool.false_eq_true, if_false]
    rw [← hrev]
    simp

theorem b64encodeBytes_head (xs : List Nat) (hxs : xs ≠ []) :
    ∃ n t, b64encodeBytes xs = b64charN n :: t := by
  match xs with
  | [a] => exact ⟨a / 4, _, rfl⟩
  | [a, b] => exact ⟨a / 4, _, rfl⟩
  | a :: b :: c :: rest => exact ⟨a / 4, _, rfl⟩


/-- Decoding inverts the envelope encoding of sendEmail on every byte list. -/
theorem base64url_roundtrip (l : List Nat) (h : allBytes l) :
    base64urlDecode (base64urlEncode l) = l := by
  induction l using b64encodeBytes.induct with
  | case1 =>
    simp [base64urlEncode, b64encodeBytes, stripTrailingEq, base64urlDecode, b64decodeVals]
  | case2 a =>
    have ha : a < 256 := h a (by simp)
    have h2 := b64char_ne_61 (a % 4 * 16)
    have d1 := b64digit_of_char (a / 4)
    have d2 := b64digit_of_char (a % 4 * 16)
    have v1 := b64val_of_char (a / 4) (by omega)
    have v2 := b64val_of_char (a % 4 * 16) (by omega)
    have henc : base64urlEncode [a] =
        [b64urlReplace (b64charN (a / 4)), b64urlReplace (b64charN (a % 4 * 16))] := by
      simp only [base64urlEncode, stripTrailingEq]
      rw [show b64encodeBytes [a] = [b64charN (a / 4), b64charN (a % 4 * 16), 61, 61]
        from rfl]
      simp [b64urlReplace_61, List.dropWhile_cons, h2]
    rw [henc]
    simp [base64urlDecode, List.filter, d1, d2, b64decodeVals, v1, v2]
    omega
  | case3 a b =>
    have ha : a < 256 := h a (by simp)
    have hb : b < 256 := h b (by simp)
    have h3 := b64char_ne_61 (b % 16 * 4)
    have d1 := b64digit_of_char (a / 4)
    have d2 := b64digit_of_char (a % 4 * 16 + b / 16)
    have d3 := b64digit_of_char (b % 16 * 4)
    have v1 := b64val_of_char (a / 4) (by omega)
    have v2 := b64val_of_char (a % 4 * 16 + b / 16) (by omega)
    have v3 := b64val_of_char (b % 16 * 4) (by omega)
    have henc : base64urlEncode [a, b] =
        [b64urlReplace (b64charN (a / 4)), b64urlReplace (b64charN (a % 4 * 16 + b / 16)),
         b64urlReplace (b64charN (b % 16 * 4))] := by
      simp only [base64urlEncode, stripTrailingEq]
      rw [show b64encodeBytes [a, b] =
          [b64charN (a / 4), b64charN (a % 4 * 16 + b / 16), b64charN (b % 16 * 4), 61]
        from rfl]
      simp [b64urlReplace_61, List.dropWhile_cons, h3]
    rw [henc]
    simp [base64urlDecode, List.filter, d1, d2, d3, b64decodeVals, v1, v2, v3]
    constructor
    · omega
    · omega
  | case4 a b c rest ih =>
    have ha : a < 256 := h a (by simp)
    have hb : b < 256 := h b (by simp)
    have hc : c < 256 := h c (by simp)
    have hrest : allBytes rest := by
      intro y hy
      exact h y (by simp [hy])
    have d1 := b64digit_of_char (a / 4)
    have d2 := b64digit_of_char (a % 4 * 16 + b / 16)
    have d3 := b64digit_of_char (b % 16 * 4 + c / 64)
    have d4 := b64digit_of_char (c % 64)
    have e1 := b64char_ne_61 (a / 4)
    have e2 := b64char_ne_61 (a % 4 * 16 + b / 16)
    have e3 := b64char_ne_61 (b % 16 * 4 + c / 64)
    have e4 := b64char_ne_61 (c % 64)
    have v1 := b64val_of_char (a / 4) (by omega)
    have v2 := b64val_of_char (a % 4 * 16 + b / 16) (by omega)
    have v3 := b64val_of_char (b % 16 * 4 + c / 64) (by omega)
    have v4 := b64val_of_char (c % 64) (by omega)
    have henc : b64encodeBytes (a :: b :: c :: rest) =
        [b64charN (a / 4), b64charN (a % 4 * 16 + b / 16),
         b64charN (b % 16 * 4 + c / 64), b64charN (c % 64)] ++ b64encodeBytes rest := rfl
    have hstrip : base64urlEncode (a :: b :: c :: rest) =
        [b64urlReplace (b64charN (a / 4)), b64urlReplace (b64charN (a % 4 * 16 + b / 16)),
         b64urlReplace (b64charN (b % 16 * 4 + c / 64)), b64urlReplace (b64charN (c % 64))]
        ++ base64urlEncode rest := by
      rw [show base64urlEncode (a :: b :: c :: rest) =
            stripTrailingEq ((b64encodeBytes (a :: b :: c :: rest)).map b64urlReplace)
          from rfl]
      rw [henc, List.map_append]
      rcases hr : rest with _ | ⟨r1, rr⟩
      · rw [show b64encodeBytes ([] : List Nat) = [] from rfl, List.map_nil,
            List.append_nil]
        rw [show base64urlEncode ([] : List Nat) = [] from rfl, List.append_nil]
        apply stripTrailingEq_of_no61
        intro y hy
        simp only [List.map_cons, List.map_nil, List.mem_cons, List.not_mem_nil,
          or_false] at hy
        rcases hy with h5 | h5 | h5 | h5 <;> rw [h5]
        exacts [e1, e2, e3, e4]
      · have hm : ∃ cc ∈ (b64encodeBytes (r1 :: rr)).map b64urlReplace,
            (cc == 61) = false := by
          rcases b64encodeBytes_head (r1 :: rr) (by simp) with ⟨n, t, hnt⟩
          refine ⟨b64urlReplace (b64charN n), ?_, b64char_ne_61 n⟩
          rw [hnt]
          simp
        rw [stripTrailingEq_append _ _ hm]
        rfl
    rw [hstrip]
    rw [show base64urlDecode
          ([b64urlReplace (b64charN (a / 4)), b64urlReplace (b64charN (a % 4 * 16 + b / 16)),
            b64urlReplace (b64charN (b % 16 * 4 + c / 64)), b64urlReplace (b64charN (c % 64))]
           ++ base64urlEncode rest) =
        b64decodeVals (List.filter isB64Digit
          ([b64urlReplace (b64charN (a / 4)), b64urlReplace (b64charN (a % 4 * 16 + b / 16)),
            b64urlReplace (b64charN (b % 16 * 4 + c / 64)), b64urlReplace (b64charN (c % 64))]
           ++ base64urlEncode rest)) from rfl]
    rw [List.filter_append]
    rw [show List.filter isB64Digit
          [b64urlReplace (b64charN (a / 4)), b64urlReplace (b64charN (a % 4 * 16 + b / 16)),
           b64urlReplace (b64charN (b % 16 * 4 + c / 64)), b64urlReplace (b64charN (c % 64))] =
        [b64urlReplace (b64charN (a / 4)), b64urlReplace (b64charN (a % 4 * 16 + b / 16)),
         b64urlReplace (b64charN (b % 16 * 4 + c / 64)), b64urlReplace (b64charN (c % 64))]
      from by simp [List.filter, d1, d2, d3, d4]]
    simp only [List.cons_append, List.nil_append]
    have hihb : b64decodeVals (List.filter isB64Digit (base64urlEncode rest)) = rest :=
      ih hrest
    simp only [b64decodeVals, hihb, v1, v2, v3, v4]
    simp only [List.cons.injEq, and_true, true_and]
    refine ⟨by omega, by omega, by omega⟩

/- ===== claim theorems ===== -/

/-- C1: for every stored bundle with a non-empty refresh token, applying a
refresh response lacking a refresh token preserves the stored refresh token,
while a truthy access token or expiry in the response overwrites the stored
field. -/
theorem applyRefreshTokens_preserves_refresh (token tokens : TokenBundle)
    (_hstored : truthyStr token.refresh_token = true)
    (hresp : truthyStr tokens.refresh_token = false) :
    (applyRefreshTokens token tokens).refresh_token = token.refresh_token ∧
    (truthyStr tokens.access_token = true →
      (applyRefreshTokens token tokens).access_token = tokens.access_token) ∧
    (truthyNat tokens.expiry_date = true →
      (applyRefreshTokens token tokens).expiry_date = tokens.expiry_date) := by
  refine ⟨?_, ?_, ?_⟩
  · simp [applyRefreshTokens, hresp]
  · intro h
    simp [applyRefreshTokens, h]
  · intro h
    simp [applyRefreshTokens, h]

/-- Witness for C1 at a concrete bundle and refresh response. -/
theorem applyRefreshTokens_preserves_refresh_witness :
    (applyRefreshTokens
        { refresh_token := some "R", access_token := some "A", expiry_date := some 5 }
        { refresh_token := none, access_token := some "B", expiry_date := some 9 }).refresh_token
      = ({ refresh_token := some "R", access_token := some "A", expiry_date := some 5 }
          : TokenBundle).refresh_token ∧
    (truthyStr (some "B") = true →
      (applyRefreshTokens
        { refresh_token := some "R", access_token := some "A", expiry_date := some 5 }
        { refresh_token := none, access_token := some "B", expiry_date := some 9 }).access_token
      = some "B") ∧
    (truthyNat (some 9) = true →
      (applyRefreshTokens
        { refresh_token := some "R", access_token := some "A", expiry_date := some 5 }
        { refresh_token := none, access_token := some "B", expiry_date := some 9 }).expiry_date
      = some 9) :=
  applyRefreshTokens_preserves_refresh _ _ (by decide) (by decide)

/-- C6: search is list with the label filter cleared, the cap passed through,
and the query forwarded verbatim. -/
theorem searchEmails_eq_listEmails (q : String) (cap : Nat) (env : Env) (o : Oracle) :
    searchEmails { query := some q, maxResults := some cap } env o =
    listEmails { query := some q, maxResults := some cap, labelIds := some [] } env o := rfl

/-- C10: every list call behaves as if each omitted field were filled with its
default (cap 10, empty query, INBOX labels); every search call defaults the cap
to 20 and always clears the label filter, forwarding the query verbatim. -/
theorem listSearch_defaults (env : Env) (o : Oracle) (q : String) :
    (∀ args : ToolArgs, listEmails args env o =
      listEmails { maxResults := some (args.maxResults.getD 10),
                   query := some (args.query.getD ""),
                   labelIds := some (args.labelIds.getD ["INBOX"]) } env o) ∧
    searchEmails { query := some q } env o =
      listEmails { maxResults := some 20, query := some q, labelIds := some [] } env o ∧
    (∀ args : ToolArgs, searchEmails args env o =
      listEmails { maxResults := some (args.maxResults.getD 20), query := args.query,
                   labelIds := some [] } env o) :=
  ⟨fun _ => rfl, rfl, fun _ => rfl⟩

/-- C3: a send request missing the recipient, the subject, or both bodies
fails with the precondition message and issues no provider call. -/
theorem sendEmail_precondition_no_calls (args : ToolArgs) (env : Env) (o : Oracle)
    (hclient : getGmailClient env = Except.ok ())
    (hmiss : truthyBytes args.toAddr = false ∨ truthyBytes args.subject = false ∨
      (truthyBytes args.body = false ∧ truthyBytes args.htmlBody = false)) :
    (sendEmail args env o).1 =
      Except.error "to, subject, and body (or htmlBody) are required" ∧
    (sendEmail args env o).2 = [] := by
  have hcond : (!truthyBytes args.toAddr || !truthyBytes args.subject ||
      (!truthyBytes args.body && !truthyBytes args.htmlBody)) = true := by
    rcases hmiss with h | h | ⟨h1, h2⟩
    · simp [h]
    · simp [h]
    · simp [h1, h2]
  constructor <;> simp [sendEmail, hclient, hcond]

/-- Witness for C3: an empty argument object against a ready environment. -/
theorem sendEmail_precondition_no_calls_witness :
    (sendEmail {} envReady oracle0).1 =
      Except.error "to, subject, and body (or htmlBody) are required" ∧
    (sendEmail {} envReady oracle0).2 = [] :=
  sendEmail_precondition_no_calls {} envReady oracle0 (by rfl) (Or.inl (by rfl))

/-- C7: batch label modification issues exactly one provider call carrying the
whole identifier list; a failing batch call fails the whole operation with
only the error message, and a successful one reports the full count. -/
theorem batchModifyLabels_single_call (args : ToolArgs) (env : Env) (o : Oracle)
    (hclient : getGmailClient env = Except.ok ()) :
    (batchModifyLabels args env o).2 =
      [GCall.messagesBatchModify (args.messageIds.getD []) (args.addLabelIds.getD [])
        (args.removeLabelIds.getD [])] ∧
    (∀ e, o.batchR (args.messageIds.getD []) (args.addLabelIds.getD [])
        (args.removeLabelIds.getD []) = Except.error e →
      (batchModifyLabels args env o).1 = Except.error e) ∧
    (o.batchR (args.messageIds.getD []) (args.addLabelIds.getD [])
        (args.removeLabelIds.getD []) = Except.ok () →
      (batchModifyLabels args env o).1 = Except.ok
        { success := true, count := (args.messageIds.getD []).length,
          addedLabels := args.addLabelIds.getD [],
          removedLabels := args.removeLabelIds.getD [] }) := by
  refine ⟨?_, ?_, ?_⟩
  · cases hb : o.batchR (args.messageIds.getD []) (args.addLabelIds.getD [])
        (args.removeLabelIds.getD []) with
    | error e => simp [batchModifyLabels, hclient, hb]
    | ok u => cases u; simp [batchModifyLabels, hclient, hb]
  · intro e he
    simp [batchModifyLabels, hclient, he]
  · intro hok
    simp [batchModifyLabels, hclient, hok]

/-- Witness for C7: a failing batch call against a two-identifier list. -/
theorem batchModifyLabels_single_call_witness :
    (batchModifyLabels { messageIds := some ["x", "y"] } envReady oracleBatchFail).2 =
      [GCall.messagesBatchModify ["x", "y"] [] []] ∧
    (batchModifyLabels { messageIds := some ["x", "y"] } envReady oracleBatchFail).1 =
      Except.error "batch boom" := by
  constructor
  · exact (batchModifyLabels_single_call _ envReady oracleBatchFail (by rfl)).1
  · exact (batchModifyLabels_single_call _ envReady oracleBatchFail (by rfl)).2.1
      "batch boom" (by rfl)

theorem not_irt_prefix (b : Nat) (x : List Nat) (hb : (73 == b) = false) :
    List.isPrefixOf (ascii "In-Reply-To: ") (b :: x) = false := by
  show ((73 == b) && List.isPrefixOf (ascii "n-Reply-To: ") x) = false
  rw [hb]
  rfl

theorem mem_ite_singleton {c : Bool} {x hl : List Nat}
    (h : hl ∈ (if c = true then [x] else [])) : c = true ∧ hl = x := by
  cases c
  · simp at h
  · simpa using h

theorem emailHeaders_mem (args : ToolArgs) (hl : List Nat)
    (hmem : hl ∈ emailHeaders args) :
    hl = ascii "To: " ++ args.toAddr.getD [] ∨
    hl = ascii "Subject: " ++ args.subject.getD [] ∨
    hl = ascii "Cc: " ++ args.cc.getD [] ∨
    hl = ascii "Bcc: " ++ args.bcc.getD [] ∨
    hl = ascii "Reply-To: " ++ args.replyTo.getD [] ∨
    (truthyBytes args.threadId = true ∧
      hl = ascii "In-Reply-To: " ++ args.threadId.getD []) := by
  simp only [emailHeaders, List.append_assoc, List.mem_append, List.mem_cons,
    List.not_mem_nil, or_false] at hmem
  rcases hmem with (h | h) | h | h | h | h
  · exact Or.inl h
  · exact Or.inr (Or.inl h)
  · exact Or.inr (Or.inr (Or.inl (mem_ite_singleton h).2))
  · exact Or.inr (Or.inr (Or.inr (Or.inl (mem_ite_singleton h).2)))
  · exact Or.inr (Or.inr (Or.inr (Or.inr (Or.inl (mem_ite_singleton h).2))))
  · exact Or.inr (Or.inr (Or.inr (Or.inr (Or.inr (mem_ite_singleton h)))))

theorem sendEmail_calls_shape (args : ToolArgs) (env : Env) (o : Oracle) :
    ∀ c ∈ (sendEmail args env o).2, ∃ raw, c = GCall.messagesSend raw (sendThreadParam args) := by
  intro c hc
  unfold sendEmail at hc
  cases hg : getGmailClient env with
  | error e => rw [hg] at hc; simp at hc
  | ok u =>
    cases u
    rw [hg] at hc
    cases hcond : (!truthyBytes args.toAddr || !truthyBytes args.subject ||
        (!truthyBytes args.body && !truthyBytes args.htmlBody)) with
    | true => rw [hcond] at hc; simp at hc
    | false =>
      rw [hcond] at hc
      simp only [Bool.false_eq_true, if_false] at hc
      cases hb : buildEmail args env with
      | error e => rw [hb] at hc; simp at hc
      | ok email =>
        rw [hb] at hc
        cases hs : o.sendR (base64urlEncode email) (sendThreadParam args) with
        | error e =>
          simp only [hs, List.mem_singleton] at hc
          exact ⟨base64urlEncode email, hc⟩
        | ok resp =>
          simp only [hs, List.mem_singleton] at hc
          exact ⟨base64urlEncode email, hc⟩

/-- C9: a truthy thread reference puts an In-Reply-To header carrying it into
the assembled headers and the same identifier into the provider send request;
without one, no header line starts with In-Reply-To and the request carries
none. -/
theorem sendEmail_threadId_header (args : ToolArgs) (env : Env) (o : Oracle) :
    (truthyBytes args.threadId = true →
      (ascii "In-Reply-To: " ++ args.threadId.getD []) ∈ emailHeaders args ∧
      sendThreadParam args = args.threadId ∧
      (∀ c ∈ (sendEmail args env o).2, ∃ raw, c = GCall.messagesSend raw args.threadId)) ∧
    (truthyBytes args.threadId = false →
      (∀ hline ∈ emailHeaders args,
        List.isPrefixOf (ascii "In-Reply-To: ") hline = false) ∧
      sendThreadParam args = none ∧
      (∀ c ∈ (sendEmail args env o).2, ∃ raw, c = GCall.messagesSend raw none)) := by
  constructor
  · intro ht
    have hparam : sendThreadParam args = args.threadId := by
      simp [sendThreadParam, ht]
    refine ⟨?_, hparam, ?_⟩
    · simp [emailHeaders, ht]
    · intro c hc
      rcases sendEmail_calls_shape args env o c hc with ⟨raw, hraw⟩
      rw [hparam] at hraw
      exact ⟨raw, hraw⟩
  · intro hf
    have hparam : sendThreadParam args = none := by
      simp [sendThreadParam, hf]
    refine ⟨?_, hparam, ?_⟩
    · intro hline hmem
      rcases emailHeaders_mem args hline hmem with h | h | h | h | h | ⟨ht, _⟩
      · rw [h]
        exact not_irt_prefix 84 _ (by decide)
      · rw [h]
        exact not_irt_prefix 83 _ (by decide)
      · rw [h]
        exact not_irt_prefix 67 _ (by decide)
      · rw [h]
        exact not_irt_prefix 66 _ (by decide)
      · rw [h]
        exact not_irt_prefix 82 _ (by decide)
      · rw [ht] at hf
        cases hf
    · intro c hc
      rcases sendEmail_calls_shape args env o c hc with ⟨raw, hraw⟩
      rw [hparam] at hraw
      exact ⟨raw, hraw⟩

/-- Witness for C9: one request with a thread reference, one without. -/
theorem sendEmail_threadId_header_witness :
    ((ascii "In-Reply-To: " ++ argsThreadW.threadId.getD []) ∈ emailHeaders argsThreadW ∧
      sendThreadParam argsThreadW = argsThreadW.threadId ∧
      (∀ c ∈ (sendEmail argsThreadW envReady oracle0).2,
        ∃ raw, c = GCall.messagesSend raw argsThreadW.threadId)) ∧
    ((∀ hline ∈ emailHeaders argsNoThreadW,
        List.isPrefixOf (ascii "In-Reply-To: ") hline = false) ∧
      sendThreadParam argsNoThreadW = none ∧
      (∀ c ∈ (sendEmail argsNoThreadW envReady oracle0).2,
        ∃ raw, c = GCall.messagesSend raw none)) :=
  ⟨(sendEmail_threadId_header argsThreadW envReady oracle0).1 (by decide),
   (sendEmail_threadId_header argsNoThreadW envReady oracle0).2 (by decide)⟩

theorem trashLoop_eq_map (o : Oracle) (ids : List String) :
    trashLoop o ids =
      (ids.map (perItemEntry o.trashR "trashed"), ids.map GCall.messagesTrash) := by
  induction ids with
  | nil => rfl
  | cons id rest ih =>
    cases ht : o.trashR id with
    | ok u => cases u; simp [trashLoop, ht, ih, perItemEntry]
    | error e => simp [trashLoop, ht, ih, perItemEntry]

theorem markLoop_eq_map (o : Oracle) (ids : List String) :
    markLoop o ids =
      (ids.map (perItemEntry (fun id => o.modifyR id none (some ["UNREAD"])) "marked_read"),
       ids.map (fun id => GCall.messagesModify id none (some ["UNREAD"]))) := by
  induction ids with
  | nil => rfl
  | cons id rest ih =>
    cases ht : o.modifyR id none (some ["UNREAD"]) with
    | ok u => cases u; simp [markLoop, ht, ih, perItemEntry]
    | error e => simp [markLoop, ht, ih, perItemEntry]

theorem modifyLoop_eq_map (o : Oracle) (addIds removeIds : List String) (ids : List String) :
    modifyLoop o addIds removeIds ids =
      (ids.map (perItemEntry (fun id => o.modifyR id (some addIds) (some removeIds)) "modified"),
       ids.map (fun id => GCall.messagesModify id (some addIds) (some removeIds))) := by
  induction ids with
  | nil => rfl
  | cons id rest ih =>
    cases ht : o.modifyR id (some addIds) (some removeIds) with
    | ok u => cases u; simp [modifyLoop, ht, ih, perItemEntry]
    | error e => simp [modifyLoop, ht, ih, perItemEntry]

theorem filter_map_one_fail {α β : Type} (p : β → Bool) (f : α → β) :
    ∀ (l : List α) (j : Nat), j < l.length →
    (∀ i, (hi : i < l.length) → p (f (l.get ⟨i, hi⟩)) = decide (i ≠ j)) →
    ((l.map f).filter p).length = l.length - 1 := by
  intro l
  induction l with
  | nil =>
    intro j hj
    simp at hj
  | cons x rest ih =>
    intro j hj h
    cases j with
    | zero =>
      have hx : p (f x) = false := by
        have h0 : p (f x) = decide ((0 : Nat) ≠ 0) := h 0 (by simp)
        rw [h0]
        simp only [decide_eq_false_iff_not]
        omega
      have hall : ∀ y ∈ rest.map f, p y = true := by
        intro y hy
        rcases List.mem_map.mp hy with ⟨a, ha, rfl⟩
        rcases List.mem_iff_get.mp ha with ⟨⟨i, hi⟩, rfl⟩
        have hs : p (f (rest.get ⟨i, hi⟩)) = decide (i + 1 ≠ 0) :=
          h (i + 1) (by simp only [List.length_cons]; omega)
        rw [hs]
        simp only [decide_eq_true_eq]
        omega
      rw [List.map_cons, List.filter_cons_of_neg (by simp [hx]),
        List.filter_eq_self.mpr hall]
      simp
    | succ j2 =>
      have hx : p (f x) = true := by
        have h0 : p (f x) = decide ((0 : Nat) ≠ j2 + 1) := h 0 (by simp)
        rw [h0]
        simp only [decide_eq_true_eq]
        omega
      have hrest : ∀ i, (hi : i < rest.length) →
          p (f (rest.get ⟨i, hi⟩)) = decide (i ≠ j2) := by
        intro i hi
        have hs : p (f (rest.get ⟨i, hi⟩)) = decide (i + 1 ≠ j2 + 1) :=
          h (i + 1) (by simp only [List.length_cons]; omega)
        rw [hs, decide_eq_decide]
        omega
      have hj2 : j2 < rest.length := by
        simp only [List.length_cons] at hj
        omega
      rw [List.map_cons, List.filter_cons_of_pos (by simp [hx])]
      simp only [List.length_cons]
      rw [ih j2 hj2 hrest]
      omega

theorem isOkB_false {α : Type} (e : Except String α) (h : isOkB e = false) :
    ∃ msg, e = Except.error msg := by
  cases e with
  | error m => exact ⟨m, rfl⟩
  | ok v => simp [isOkB] at h

theorem isOkB_true {α : Type} (e : Except String α) (h : isOkB e = true) :
    ∃ v, e = Except.ok v := by
  cases e with
  | error m => simp [isOkB] at h
  | ok v => exact ⟨v, rfl⟩

theorem map_getElem? {α β : Type} (f : α → β) (l : List α) (i : Nat) (hi : i < l.length) :
    (l.map f)[i]? = some (f (l.get ⟨i, hi⟩)) := by
  rw [List.getElem?_map, List.getElem?_eq_getElem hi]
  rfl

theorem perItemMap_spec (call : String → Except String Unit) (okStatus : String)
    (hne : ("error" == okStatus) = false) (ids : List String) (j : Nat)
    (hj : j < ids.length)
    (h : ∀ i, (hi : i < ids.length) → isOkB (call (ids.get ⟨i, hi⟩)) = decide (i ≠ j)) :
    ((ids.map (perItemEntry call okStatus)).filter
        (fun x => x.status == okStatus)).length = ids.length - 1 ∧
    (ids.map (perItemEntry call okStatus)).length = ids.length ∧
    (∀ i, (hi : i < ids.length) →
      (i = j → ∃ msg, (ids.map (perItemEntry call okStatus))[i]? =
        some { id := ids.get ⟨i, hi⟩, status := "error", error := some msg }) ∧
      (i ≠ j → (ids.map (perItemEntry call okStatus))[i]? =
        some { id := ids.get ⟨i, hi⟩, status := okStatus, error := none })) := by
  have hp : ∀ id, ((perItemEntry call okStatus id).status == okStatus) = isOkB (call id) := by
    intro id
    cases hc : call id with
    | ok u => simp [perItemEntry, hc, isOkB]
    | error e => simp [perItemEntry, hc, isOkB, hne]
  refine ⟨?_, by simp, ?_⟩
  · apply filter_map_one_fail _ _ ids j hj
    intro i hi
    rw [hp]
    exact h i hi
  · intro i hi
    constructor
    · intro hij
      subst hij
      have hfail : isOkB (call (ids.get ⟨i, hi⟩)) = false := by
        rw [h i hi]
        simp
      rcases isOkB_false _ hfail with ⟨msg, hmsg⟩
      refine ⟨msg, ?_⟩
      rw [map_getElem? _ _ _ hi]
      simp only [perItemEntry, hmsg]
    · intro hij
      have hok : isOkB (call (ids.get ⟨i, hi⟩)) = true := by
        rw [h i hi]
        simp [hij]
      rcases isOkB_true _ hok with ⟨v, hv⟩
      rw [map_getElem? _ _ _ hi]
      simp only [perItemEntry, hv]

/-- C4: for each per-item bulk operation (trash, mark read, modify labels),
when exactly the j-th identifier's provider call fails, the operation still
succeeds, reports N-1 successes, gives the failing identifier an error entry
carrying a message, and gives every other identifier a success entry. -/
theorem perItem_batch_single_failure (env : Env) (o : Oracle) (ids : List String)
    (j : Nat) (hj : j < ids.length) (hclient : getGmailClient env = Except.ok ())
    (addIds removeIds : List String) :
    ((∀ i, (hi : i < ids.length) →
        isOkB (o.trashR (ids.get ⟨i, hi⟩)) = decide (i ≠ j)) →
      ∃ r, (trashEmails { messageIds := some ids } env o).1 = Except.ok r ∧
        r.trashed = ids.length - 1 ∧ r.results.length = ids.length ∧
        (∀ i, (hi : i < ids.length) →
          (i = j → ∃ msg, r.results[i]? =
            some { id := ids.get ⟨i, hi⟩, status := "error", error := some msg }) ∧
          (i ≠ j → r.results[i]? =
            some { id := ids.get ⟨i, hi⟩, status := "trashed", error := none }))) ∧
    ((∀ i, (hi : i < ids.length) →
        isOkB (o.modifyR (ids.get ⟨i, hi⟩) none (some ["UNREAD"])) = decide (i ≠ j)) →
      ∃ r, (markAsRead { messageIds := some ids } env o).1 = Except.ok r ∧
        r.marked = ids.length - 1 ∧ r.results.length = ids.length ∧
        (∀ i, (hi : i < ids.length) →
          (i = j → ∃ msg, r.results[i]? =
            some { id := ids.get ⟨i, hi⟩, status := "error", error := some msg }) ∧
          (i ≠ j → r.results[i]? =
            some { id := ids.get ⟨i, hi⟩, status := "marked_read", error := none }))) ∧
    ((∀ i, (hi : i < ids.length) →
        isOkB (o.modifyR (ids.get ⟨i, hi⟩) (some addIds) (some removeIds)) = decide (i ≠ j)) →
      ∃ r, (modifyEmailLabels
          { messageIds := some ids, addLabelIds := some addIds,
            removeLabelIds := some removeIds } env o).1 = Except.ok r ∧
        r.modified = ids.length - 1 ∧ r.results.length = ids.length ∧
        (∀ i, (hi : i < ids.length) →
          (i = j → ∃ msg, r.results[i]? =
            some { id := ids.get ⟨i, hi⟩, status := "error", error := some msg }) ∧
          (i ≠ j → r.results[i]? =
            some { id := ids.get ⟨i, hi⟩, status := "modified", error := none }))) := by
  refine ⟨?_, ?_, ?_⟩
  · intro h
    have hspec := perItemMap_spec o.trashR "trashed" (by decide) ids j hj h
    refine ⟨trashResultOf o ids, ?_, hspec.1, hspec.2.1, hspec.2.2⟩
    simp [trashEmails, hclient, trashLoop_eq_map, trashResultOf]
  · intro h
    have hspec := perItemMap_spec (fun id => o.modifyR id none (some ["UNREAD"]))
      "marked_read" (by decide) ids j hj h
    refine ⟨markResultOf o ids, ?_, hspec.1, hspec.2.1, hspec.2.2⟩
    simp [markAsRead, hclient, markLoop_eq_map, markResultOf]
  · intro h
    have hspec := perItemMap_spec (fun id => o.modifyR id (some addIds) (some removeIds))
      "modified" (by decide) ids j hj h
    refine ⟨modifyResultOf o addIds removeIds ids, ?_, hspec.1, hspec.2.1, hspec.2.2⟩
    simp [modifyEmailLabels, hclient, modifyLoop_eq_map, modifyResultOf]

/-- Witness for C4: three identifiers of which the middle one fails, for each
of the three bulk operations. -/
theorem perItem_batch_single_failure_witness :
    (∃ r, (trashEmails { messageIds := some ["a", "b", "c"] } envReady oracleFailB).1 =
        Except.ok r ∧ r.trashed = 2 ∧ r.results.length = 3) ∧
    (∃ r, (markAsRead { messageIds := some ["a", "b", "c"] } envReady oracleFailB).1 =
        Except.ok r ∧ r.marked = 2 ∧ r.results.length = 3) ∧
    (∃ r, (modifyEmailLabels
        { messageIds := some ["a", "b", "c"],
          addLabelIds := some ["L"], removeLabelIds := some [] } envReady oracleFailB).1 =
        Except.ok r ∧ r.modified = 2 ∧ r.results.length = 3) := by
  have H := perItem_batch_single_failure envReady oracleFailB ["a", "b", "c"] 1
    (by decide) (by rfl) ["L"] []
  refine ⟨?_, ?_, ?_⟩
  · rcases H.1 (by decide) with ⟨r, h1, h2, h3, _⟩
    exact ⟨r, h1, h2, h3⟩
  · rcases H.2.1 (by decide) with ⟨r, h1, h2, h3, _⟩
    exact ⟨r, h1, h2, h3⟩
  · rcases H.2.2 (by decide) with ⟨r, h1, h2, h3, _⟩
    exact ⟨r, h1, h2, h3⟩

theorem filter_replicate65 (k : Nat) :
    (List.replicate k 65).filter isB64Digit = List.replicate k 65 :=
  List.filter_eq_self.mpr (by
    intro a ha
    rw [List.eq_of_mem_replicate ha]
    decide)

theorem b64decodeVals_replicateA : ∀ (n : Nat) (tail : List Nat),
    b64decodeVals (List.replicate (4 * n) 65 ++ tail) =
      List.replicate (3 * n) 0 ++ b64decodeVals tail := by
  intro n
  induction n with
  | zero =>
    intro tail
    simp
  | succ m ih =>
    intro tail
    have hstep : ∀ rs : List Nat, b64decodeVals (65 :: 65 :: 65 :: 65 :: rs) =
        0 :: 0 :: 0 :: b64decodeVals rs := by
      intro rs
      simp [b64decodeVals, b64val]
    rw [show 4 * (m + 1) = 4 + 4 * m from by ring, List.replicate_add]
    rw [show (List.replicate 4 65 : List Nat) = [65, 65, 65, 65] from rfl]
    rw [show ([65, 65, 65, 65] : List Nat) ++ List.replicate (4 * m) 65 ++ tail =
        65 :: 65 :: 65 :: 65 :: (List.replicate (4 * m) 65 ++ tail) from by simp]
    rw [hstep, ih]
    rw [show 3 * (m + 1) = 3 + 3 * m from by ring, List.replicate_add]
    rfl

theorem extractBody_fullResp5001 :
    extractBody fullResp5001.payload = List.replicate 5001 0 := by
  have hne : (List.replicate 6668 65).isEmpty = false := by
    rw [show (6668 : Nat) = 6667 + 1 from rfl, List.replicate_succ]
    rfl
  have htb : truthyBytes (some (List.replicate 6668 65)) = true := by
    rw [show truthyBytes (some (List.replicate 6668 65)) =
        !(List.replicate 6668 65).isEmpty from rfl, hne]
    rfl
  have h1 : extractBody fullResp5001.payload = base64urlDecode (List.replicate 6668 65) := by
    unfold extractBody
    rw [show fullResp5001.payload =
        { headers := [], bodyData := some (List.replicate 6668 65), parts := none } from rfl]
    simp only [htb]
    rw [if_pos trivial]
    rfl
  rw [h1]
  unfold base64urlDecode
  rw [filter_replicate65]
  have h2 := b64decodeVals_replicateA 1667 []
  rw [show b64decodeVals [] = [] from rfl, List.append_nil] at h2
  rw [show (4 * 1667 : Nat) = 6668 from rfl] at h2
  rw [h2, show (3 * 1667 : Nat) = 5001 from rfl, List.append_nil]

theorem extractBody_fullResp5000 :
    extractBody fullResp5000.payload = List.replicate 5000 0 := by
  have hne : (List.replicate 6667 65).isEmpty = false := by
    rw [show (6667 : Nat) = 6666 + 1 from rfl, List.replicate_succ]
    rfl
  have htb : truthyBytes (some (List.replicate 6667 65)) = true := by
    rw [show truthyBytes (some (List.replicate 6667 65)) =
        !(List.replicate 6667 65).isEmpty from rfl, hne]
    rfl
  have h1 : extractBody fullResp5000.payload = base64urlDecode (List.replicate 6667 65) := by
    unfold extractBody
    rw [show fullResp5000.payload =
        { headers := [], bodyData := some (List.replicate 6667 65), parts := none } from rfl]
    simp only [htb]
    rw [if_pos trivial]
    rfl
  rw [h1]
  unfold base64urlDecode
  rw [filter_replicate65]
  have hsplit : (List.replicate 6667 65 : List Nat) =
      List.replicate (4 * 1666) 65 ++ [65, 65, 65] := by
    rw [show (List.replicate (4 * 1666) 65 : List Nat) ++ [65, 65, 65] =
        List.replicate (4 * 1666) 65 ++ List.replicate 3 65 from rfl]
    rw [← List.replicate_add]
  rw [hsplit, b64decodeVals_replicateA]
  have htail : b64decodeVals [65, 65, 65] = [0, 0] := by
    simp [b64decodeVals, b64val]
  rw [htail]
  rw [show (5000 : Nat) = 3 * 1666 + 2 from rfl, List.replicate_add]
  rfl

/-- C5: the decoded body returned by getEmail is cut to 5000 units: a
5001-unit decoded body comes back as its first 5000 units, and a 5000-unit
decoded body comes back unmodified. -/
theorem getEmail_body_truncation (args : ToolArgs) (env : Env) (o : Oracle)
    (resp : FullResp) (hclient : getGmailClient env = Except.ok ())
    (hresp : o.fullR (args.messageId.getD "") = Except.ok resp) :
    ((extractBody resp.payload).length = 5001 →
      ∃ r, (getEmail args env o).1 = Except.ok r ∧
        r.body = (extractBody resp.payload).take 5000 ∧ r.body.length = 5000) ∧
    ((extractBody resp.payload).length = 5000 →
      ∃ r, (getEmail args env o).1 = Except.ok r ∧ r.body = extractBody resp.payload) := by
  have hget : (getEmail args env o).1 = Except.ok (emailResultOf resp) := by
    simp [getEmail, hclient, hresp, emailResultOf]
  constructor
  · intro h5001
    refine ⟨emailResultOf resp, hget, rfl, ?_⟩
    show ((extractBody resp.payload).take 5000).length = 5000
    rw [List.length_take]
    omega
  · intro h5000
    refine ⟨emailResultOf resp, hget, ?_⟩
    show (extractBody resp.payload).take 5000 = extractBody resp.payload
    exact List.take_of_length_le (by omega)

/-- Witness for C5: bodies decoding to exactly 5001 and exactly 5000 zero
bytes. -/
theorem getEmail_body_truncation_witness :
    (∃ r, (getEmail { messageId := some "m1" } envReady
        { oracle0 with fullR := fun _ => Except.ok fullResp5001 }).1 = Except.ok r ∧
      r.body = (extractBody fullResp5001.payload).take 5000 ∧ r.body.length = 5000) ∧
    (∃ r, (getEmail { messageId := some "m1" } envReady
        { oracle0 with fullR := fun _ => Except.ok fullResp5000 }).1 = Except.ok r ∧
      r.body = extractBody fullResp5000.payload) := by
  constructor
  · exact (getEmail_body_truncation _ envReady _ fullResp5001 (by rfl) (by rfl)).1
      (by rw [extractBody_fullResp5001, List.length_replicate])
  · exact (getEmail_body_truncation _ envReady _ fullResp5000 (by rfl) (by rfl)).2
      (by rw [extractBody_fullResp5000, List.length_replicate])

theorem ascii_append (s t : String) : ascii (s ++ t) = ascii s ++ ascii t := by
  simp [ascii, String.data_append]

theorem containsSeq_append_right (pat c b : List Nat) (h : containsSeq pat c = true) :
    containsSeq pat (c ++ b) = true := by
  rcases (containsSeq_iff _ _).mp h with ⟨u, v, rfl⟩
  exact (containsSeq_iff _ _).mpr ⟨u, v ++ b, by simp⟩

theorem containsSeq_append_left (pat a c : List Nat) (h : containsSeq pat c = true) :
    containsSeq pat (a ++ c) = true := by
  rcases (containsSeq_iff _ _).mp h with ⟨u, v, rfl⟩
  exact (containsSeq_iff _ _).mpr ⟨a ++ u, v, by simp⟩

theorem containsSub_token_msg (p : String) :
    containsSub ("Error: " ++ rewriteErrorMessage ("Token file not found: " ++ p ++
        ". Please run scripts/google-auth.js to authenticate."))
      "scripts/google-auth.js" = true := by
  unfold rewriteErrorMessage
  by_cases h1 : (containsSub ("Token file not found: " ++ p ++
      ". Please run scripts/google-auth.js to authenticate.") "invalid_grant" ||
    containsSub ("Token file not found: " ++ p ++
      ". Please run scripts/google-auth.js to authenticate.") "invalid_token") = true
  · rw [if_pos h1]
    unfold containsSub
    simp only [ascii_append]
    apply containsSeq_append_left
    apply containsSeq_append_right
    decide
  · rw [if_neg h1, ite_self]
    unfold containsSub
    simp only [ascii_append]
    apply containsSeq_append_left
    apply containsSeq_append_left
    decide

/-- C8: while the credentials file is present and the token file absent, every
registered tool call (get_unread_count in particular) yields an error-flagged
textual payload whose text references running the authorization script, never
a protocol-level fault. -/
theorem dispatch_token_missing_error_payload (name : String) (args : ToolArgs)
    (env : Env) (o : Oracle) (hname : name ∈ toolNames)
    (hcreds : env.credsPresent = true) (htoken : env.tokenPresent = false) :
    (handleCall name args env o).isError = true ∧
    containsSub (responseText (handleCall name args env o))
      "scripts/google-auth.js" = true := by
  have hg : getGmailClient env = Except.error ("Token file not found: " ++ env.tokenPath ++
      ". Please run scripts/google-auth.js to authenticate.") := by
    simp [getGmailClient, hcreds, htoken]
  have hdisp : dispatchTool name args env o = Except.error ("Token file not found: " ++
      env.tokenPath ++ ". Please run scripts/google-auth.js to authenticate.") := by
    fin_cases hname <;>
      simp [dispatchTool, listEmails, getEmail, searchEmails, getUnreadCount, listLabels,
        trashEmails, markAsRead, createLabel, deleteLabel, modifyEmailLabels,
        batchModifyLabels, sendEmail, hg, Except.map]
  constructor
  · simp [handleCall, hdisp]
  · have hresp : responseText (handleCall name args env o) =
        "Error: " ++ rewriteErrorMessage ("Token file not found: " ++ env.tokenPath ++
          ". Please run scripts/google-auth.js to authenticate.") := by
      simp [handleCall, hdisp, responseText]
    rw [hresp]
    exact containsSub_token_msg env.tokenPath

/-- Witness for C8: a get_unread_count call with credentials present and the
token file absent. -/
theorem dispatch_token_missing_error_payload_witness :
    (handleCall "get_unread_count" {} envNoToken oracle0).isError = true ∧
    containsSub (responseText (handleCall "get_unread_count" {} envNoToken oracle0))
      "scripts/google-auth.js" = true :=
  dispatch_token_missing_error_payload "get_unread_count" {} envNoToken oracle0
    (by decide) (by rfl) (by rfl)

theorem attChunk_eq_core (a : Attachment) (c : List Nat) :
    attChunk a c = attCore a c ++ crlf := by
  simp [attChunk, attCore, crlf2, List.append_assoc]

theorem buildAttachments_ok (env : Env) (mb : List Nat) :
    ∀ atts : List Attachment, (∀ a ∈ atts, (env.files a.path).isSome = true) →
    buildAttachments env mb atts = Except.ok (List.flatten (atts.map
      (fun a => dd ++ mb ++ crlf ++ attChunk a ((env.files a.path).getD [])))) := by
  intro atts
  induction atts with
  | nil =>
    intro _
    rfl
  | cons a as ih =>
    intro h
    have ha := h a (List.mem_cons_self a as)
    rcases Option.isSome_iff_exists.mp ha with ⟨c, hc⟩
    have hrec := ih (fun b hb => h b (List.mem_cons_of_mem a hb))
    simp only [buildAttachments, hc, hrec, List.map_cons, List.flatten_cons,
      Option.getD_some, List.append_assoc]

theorem buildEmail_mixed (args : ToolArgs) (env : Env) (atts : List Attachment)
    (hatts : args.attachments = some atts) (hne : atts ≠ [])
    (hfiles : ∀ a ∈ atts, (env.files a.path).isSome = true) :
    buildEmail args env = Except.ok (mixedEmail args env) := by
  have hemp : atts.isEmpty = false := List.isEmpty_eq_false.mpr hne
  have hba := buildAttachments_ok env (mixedBoundary env) atts hfiles
  unfold buildEmail mixedEmail
  rw [hatts]
  simp only [Option.getD_some, hemp, Bool.not_false, if_true, hba]

theorem sendEmail_sends (args : ToolArgs) (env : Env) (o : Oracle)
    (hclient : getGmailClient env = Except.ok ())
    (hto : truthyBytes args.toAddr = true) (hsub : truthyBytes args.subject = true)
    (hbody : truthyBytes args.body = true)
    (hbuild : buildEmail args env = Except.ok (mixedEmail args env)) :
    (sendEmail args env o).2 =
      [GCall.messagesSend (base64urlEncode (mixedEmail args env)) (sendThreadParam args)] := by
  have hcond : (!truthyBytes args.toAddr || !truthyBytes args.subject ||
      (!truthyBytes args.body && !truthyBytes args.htmlBody)) = false := by
    simp [hto, hsub, hbody]
  unfold sendEmail
  rw [hclient]
  simp only [hcond, Bool.false_eq_true, if_false, hbuild]
  cases hs : o.sendR (base64urlEncode (mixedEmail args env)) (sendThreadParam args) with
  | error e => simp [hs]
  | ok resp => simp [hs]

theorem containsSeq_false_of_longer (pat l : List Nat) (h : l.length < pat.length) :
    containsSeq pat l = false := by
  cases hcs : containsSeq pat l with
  | false => rfl
  | true =>
    exfalso
    rcases (containsSeq_iff _ _).mp hcs with ⟨u, v, huv⟩
    have hlen := congrArg List.length huv
    simp only [List.length_append] at hlen
    omega

theorem takeUntil34 (mb : List Nat) (h : 34 ∉ mb) :
    takeUntilByte 34 (mb ++ [34]) = mb := by
  unfold takeUntilByte
  rw [takeWhile_append_of_all _ _ _ (by
    intro x hx
    have hne : x ≠ 34 := fun hc => h (hc ▸ hx)
    simp [hne])]
  rw [show List.takeWhile (fun c => !(c == 34)) [34] = [] from rfl]
  simp

theorem mixedBoundary_length (env : Env) : 12 ≤ (mixedBoundary env).length := by
  unfold mixedBoundary
  have h12 : (ascii "----=_Mixed_").length = 12 := by decide
  simp only [List.length_append]
  omega

theorem flatten_interc (env : Env) (g : Attachment → List Nat) :
    ∀ (atts : List Attachment) (x : List Nat),
    x ++ crlf ++ List.flatten (atts.map
        (fun a => dd ++ mixedBoundary env ++ crlf ++ (g a ++ crlf))) ++
      (dd ++ mixedBoundary env ++ dd ++ crlf) =
    interc (mixedSep env) (x :: (atts.map (fun a => crlf ++ g a) ++ [dd ++ crlf])) := by
  intro atts
  induction atts with
  | nil =>
    intro x
    simp [interc, mixedSep, List.append_assoc]
  | cons a as ih =>
    intro x
    simp only [List.map_cons, List.flatten_cons, List.cons_append, interc,
      List.append_eq]
    rw [← ih (crlf ++ g a)]
    simp [mixedSep, List.append_assoc]

theorem mixedEmail_decomp (args : ToolArgs) (env : Env) (atts : List Attachment)
    (hatts : args.attachments = some atts)
    (hhtml : truthyBytes args.htmlBody = true) :
    mixedEmail args env =
      mixedHeaderBlock args env ++ crlf2 ++
      (dd ++ mixedBoundary env ++ crlf ++
        interc (mixedSep env)
          (altChunk args env ::
            (atts.map (fun a => crlf ++ attCore a ((env.files a.path).getD [])) ++
             [dd ++ crlf]))) := by
  have hI := flatten_interc env (fun a => attCore a ((env.files a.path).getD []))
    atts (altChunk args env)
  simp only [] at hI
  rw [← hI]
  unfold mixedEmail mixedEmailWith mixedTextPart
  rw [hatts]
  simp only [Option.getD_some, hhtml, if_true, attChunk_eq_core]
  simp [List.append_assoc]

theorem parseMixed_mixedEmail (args : ToolArgs) (env : Env) (atts : List Attachment)
    (hatts : args.attachments = some atts)
    (hhtml : truthyBytes args.htmlBody = true)
    (hhdr : noEarlyOcc crlf2 (mixedHeaderBlock args env) = true)
    (hct : noEarlyOcc ctMixedPat (mixedHeaderPre args) = true)
    (hq : 34 ∉ mixedBoundary env)
    (haltsep : noEarlyOcc (mixedSep env) (altChunk args env) = true)
    (hattsep : ∀ a ∈ atts,
      noEarlyOcc (mixedSep env) (crlf ++ attCore a ((env.files a.path).getD [])) = true) :
    parseMixed (mixedEmail args env) =
      some (altChunk args env ::
        atts.map (fun a => attCore a ((env.files a.path).getD []))) := by
  have hdecomp := mixedEmail_decomp args env atts hatts hhtml
  have hbreak1 : breakOnSeq crlf2 (mixedEmail args env) =
      some (mixedHeaderBlock args env,
        dd ++ mixedBoundary env ++ crlf ++
          interc (mixedSep env)
            (altChunk args env ::
              (atts.map (fun a => crlf ++ attCore a ((env.files a.path).getD [])) ++
               [dd ++ crlf]))) := by
    rw [hdecomp]
    exact breakOnSeq_first crlf2 (by decide) _ _ hhdr
  have hhdrdecomp : mixedHeaderBlock args env =
      mixedHeaderPre args ++ ctMixedPat ++ (mixedBoundary env ++ [34]) := by
    unfold mixedHeaderBlock
    simp [List.append_assoc]
  have hb2 : breakOnSeq ctMixedPat (mixedHeaderBlock args env) =
      some (mixedHeaderPre args, mixedBoundary env ++ [34]) := by
    rw [hhdrdecomp]
    exact breakOnSeq_first ctMixedPat (by decide) _ _ hct
  have hextract : extractBoundary (mixedHeaderBlock args env) = some (mixedBoundary env) := by
    unfold extractBoundary
    simp only [hb2]
    rw [takeUntil34 _ hq]
  have hpre : List.isPrefixOf (dd ++ mixedBoundary env ++ crlf)
      (dd ++ mixedBoundary env ++ crlf ++
        interc (mixedSep env)
          (altChunk args env ::
            (atts.map (fun a => crlf ++ attCore a ((env.files a.path).getD [])) ++
             [dd ++ crlf]))) = true := by
    apply List.isPrefixOf_iff_prefix.mpr
    exact ⟨interc (mixedSep env)
      (altChunk args env ::
        (atts.map (fun a => crlf ++ attCore a ((env.files a.path).getD [])) ++
         [dd ++ crlf])), by simp [List.append_assoc]⟩
  have hdrop : (dd ++ mixedBoundary env ++ crlf ++
      interc (mixedSep env)
        (altChunk args env ::
          (atts.map (fun a => crlf ++ attCore a ((env.files a.path).getD [])) ++
           [dd ++ crlf]))).drop (dd ++ mixedBoundary env ++ crlf).length =
      interc (mixedSep env)
        (altChunk args env ::
          (atts.map (fun a => crlf ++ attCore a ((env.files a.path).getD [])) ++
           [dd ++ crlf])) := by
    rw [show dd ++ mixedBoundary env ++ crlf ++
        interc (mixedSep env)
          (altChunk args env ::
            (atts.map (fun a => crlf ++ attCore a ((env.files a.path).getD [])) ++
             [dd ++ crlf])) =
        (dd ++ mixedBoundary env ++ crlf) ++
        interc (mixedSep env)
          (altChunk args env ::
            (atts.map (fun a => crlf ++ attCore a ((env.files a.path).getD [])) ++
             [dd ++ crlf])) from by simp [List.append_assoc]]
    exact List.drop_left _ _
  have hsepeq : crlf ++ dd ++ mixedBoundary env = mixedSep env := rfl
  have hsepne : mixedSep env ≠ [] := by
    unfold mixedSep crlf
    simp
  have hseplen : 16 ≤ (mixedSep env).length := by
    have hmb := mixedBoundary_length env
    unfold mixedSep
    simp only [List.length_append]
    have h2 : crlf.length = 2 := by decide
    have h2b : dd.length = 2 := by decide
    omega
  have hchunkseq : altChunk args env ::
      (atts.map (fun a => crlf ++ attCore a ((env.files a.path).getD [])) ++
       [dd ++ crlf]) =
      (altChunk args env ::
        atts.map (fun a => crlf ++ attCore a ((env.files a.path).getD []))) ++
      [dd ++ crlf] := by
    simp
  have hsplit : splitOnSeq (crlf ++ dd ++ mixedBoundary env)
      (interc (mixedSep env)
        (altChunk args env ::
          (atts.map (fun a => crlf ++ attCore a ((env.files a.path).getD [])) ++
           [dd ++ crlf]))) =
      altChunk args env ::
        (atts.map (fun a => crlf ++ attCore a ((env.files a.path).getD [])) ++
         [dd ++ crlf]) := by
    rw [hsepeq]
    apply splitOnSeq_interc _ hsepne _ (by simp)
    · intro c hc
      rw [hchunkseq, List.dropLast_concat] at hc
      rcases List.mem_cons.mp hc with h | h
      · rw [h]
        exact haltsep
      · rcases List.mem_map.mp h with ⟨a, ha, rfl⟩
        exact hattsep a ha
    · rw [hchunkseq, List.getLastD_concat]
      apply containsSeq_false_of_longer
      have h4 : (dd ++ crlf).length = 4 := by decide
      omega
  have htlne : (atts.map (fun a => crlf ++ attCore a ((env.files a.path).getD [])) ++
      [dd ++ crlf]).isEmpty = false := by
    rw [List.isEmpty_eq_false]
    simp
  have hlastd : (atts.map (fun a => crlf ++ attCore a ((env.files a.path).getD [])) ++
      [dd ++ crlf]).getLastD [] = dd ++ crlf := List.getLastD_concat _ _ _
  have hdl : (atts.map (fun a => crlf ++ attCore a ((env.files a.path).getD [])) ++
      [dd ++ crlf]).dropLast =
      atts.map (fun a => crlf ++ attCore a ((env.files a.path).getD [])) :=
    List.dropLast_concat
  have hall : (atts.map (fun a => crlf ++ attCore a ((env.files a.path).getD []))).all
      (fun p => List.isPrefixOf crlf p) = true := by
    rw [List.all_eq_true]
    intro p hp
    rcases List.mem_map.mp hp with ⟨a, _, rfl⟩
    exact List.isPrefixOf_iff_prefix.mpr ⟨_, rfl⟩
  unfold parseMixed
  rw [hbreak1]
  simp only [hextract, hpre, hdrop, hsplit, htlne, hlastd, hdl, hall,
    eq_self_iff_true, if_true, Bool.false_eq_true, if_false, beq_self_eq_true,
    Bool.and_self, List.map_map]
  refine congrArg some (congrArg (List.cons (altChunk args env)) ?_)
  apply List.map_congr_left
  intro a _
  rfl

theorem isAlternativePart_altChunk (args : ToolArgs) (env : Env) :
    isAlternativePart (altChunk args env) = true := by
  unfold isAlternativePart altChunk altHeaderLine
  apply List.isPrefixOf_iff_prefix.mpr
  rw [show ascii "Content-Type: multipart/alternative; boundary=" =
      ascii "Content-Type: multipart/alternative" ++ ascii "; boundary=" from by decide]
  simp only [List.append_assoc]
  exact List.prefix_append _ _

theorem isAttachmentPart_attCore (a : Attachment) (c : List Nat)
    (hhdr : noEarlyOcc crlf2 (attHeader a) = true) :
    isAttachmentPart (attCore a c) = true := by
  unfold isAttachmentPart
  have hb : breakOnSeq crlf2 (attCore a c) =
      some (attHeader a, b64encodeBytes c ++ crlf) := by
    rw [show attCore a c = attHeader a ++ crlf2 ++ (b64encodeBytes c ++ crlf) from by
      unfold attCore
      simp [List.append_assoc]]
    exact breakOnSeq_first crlf2 (by decide) _ _ hhdr
  simp only [hb]
  unfold attHeader
  apply (containsSeq_iff _ _).mpr
  refine ⟨ascii "Content-Type: " ++ attMime a ++ crlf,
    ascii "; filename=" ++ [34] ++ attFilename a ++ [34] ++ crlf ++
      ascii "Content-Transfer-Encoding: base64", ?_⟩
  rw [show ascii "Content-Disposition: attachment; filename=" =
      ascii "Content-Disposition: attachment" ++ ascii "; filename=" from by decide]
  simp [List.append_assoc]

theorem isAttachmentPart_altChunk (args : ToolArgs) (env : Env)
    (h6 : noEarlyOcc crlf2 (altHeaderLine env) = true)
    (h7 : containsSeq (ascii "Content-Disposition: attachment") (altHeaderLine env) = false) :
    isAttachmentPart (altChunk args env) = false := by
  unfold isAttachmentPart
  have hrest : altChunk args env = altHeaderLine env ++ crlf2 ++
      (dd ++ altBoundary env ++ crlf ++
       ascii "Content-Type: text/plain; charset=UTF-8" ++ crlf ++
       ascii "Content-Transfer-Encoding: 7bit" ++ crlf2 ++
       (if truthyBytes args.body then args.body.getD []
        else stripTags (args.htmlBody.getD []) ++ crlf2) ++
       dd ++ altBoundary env ++ crlf ++
       ascii "Content-Type: text/html; charset=UTF-8" ++ crlf ++
       ascii "Content-Transfer-Encoding: 7bit" ++ crlf2 ++
       args.htmlBody.getD [] ++ crlf2 ++
       dd ++ altBoundary env ++ dd ++ crlf) := by
    unfold altChunk
    simp [List.append_assoc]
  rw [hrest]
  have hb := breakOnSeq_first crlf2 (by decide) (altHeaderLine env)
    (dd ++ altBoundary env ++ crlf ++
       ascii "Content-Type: text/plain; charset=UTF-8" ++ crlf ++
       ascii "Content-Transfer-Encoding: 7bit" ++ crlf2 ++
       (if truthyBytes args.body then args.body.getD []
        else stripTags (args.htmlBody.getD []) ++ crlf2) ++
       dd ++ altBoundary env ++ crlf ++
       ascii "Content-Type: text/html; charset=UTF-8" ++ crlf ++
       ascii "Content-Transfer-Encoding: 7bit" ++ crlf2 ++
       args.htmlBody.getD [] ++ crlf2 ++
       dd ++ altBoundary env ++ dd ++ crlf) h6
  simp only [hb]
  exact h7

/-- C2: a send request with a plain body, an HTML body and attachments
produces a base64url payload that decodes back to a top-level
multipart/mixed structure holding exactly one multipart/alternative part
and one attachment part per attachment, under the boundary non-collision
side conditions the source's random boundaries are intended to guarantee. -/
theorem sendEmail_mime_structure (args : ToolArgs) (env : Env) (o : Oracle)
    (atts : List Attachment)
    (hclient : getGmailClient env = Except.ok ())
    (hto : truthyBytes args.toAddr = true)
    (hsub : truthyBytes args.subject = true)
    (hbody : truthyBytes args.body = true)
    (hhtml : truthyBytes args.htmlBody = true)
    (hatts : args.attachments = some atts)
    (hne : atts ≠ [])
    (hfiles : ∀ a ∈ atts, (env.files a.path).isSome = true)
    (hbytes : allBytes (mixedEmail args env))
    (hhdr : noEarlyOcc crlf2 (mixedHeaderBlock args env) = true)
    (hct : noEarlyOcc ctMixedPat (mixedHeaderPre args) = true)
    (hq : 34 ∉ mixedBoundary env)
    (haltsep : noEarlyOcc (mixedSep env) (altChunk args env) = true)
    (hattsep : ∀ a ∈ atts,
      noEarlyOcc (mixedSep env) (crlf ++ attCore a ((env.files a.path).getD [])) = true)
    (halthdr : noEarlyOcc crlf2 (altHeaderLine env) = true)
    (haltdisp : containsSeq (ascii "Content-Disposition: attachment")
      (altHeaderLine env) = false)
    (hatthdr : ∀ a ∈ atts, noEarlyOcc crlf2 (attHeader a) = true)
    (hnotalt : ∀ a ∈ atts,
      isAlternativePart (attCore a ((env.files a.path).getD [])) = false) :
    (sendEmail args env o).2 =
      [GCall.messagesSend (base64urlEncode (mixedEmail args env)) (sendThreadParam args)] ∧
    ∃ parts,
      parseMixed (base64urlDecode (base64urlEncode (mixedEmail args env))) = some parts ∧
      parts.length = atts.length + 1 ∧
      (parts.filter isAlternativePart).length = 1 ∧
      (parts.filter isAttachmentPart).length = atts.length := by
  have hbuild := buildEmail_mixed args env atts hatts hne hfiles
  have hsend := sendEmail_sends args env o hclient hto hsub hbody hbuild
  have hrt := base64url_roundtrip (mixedEmail args env) hbytes
  have hparse := parseMixed_mixedEmail args env atts hatts hhtml hhdr hct hq haltsep hattsep
  refine ⟨hsend,
    altChunk args env :: atts.map (fun a => attCore a ((env.files a.path).getD [])),
    ?_, ?_, ?_, ?_⟩
  · rw [hrt]
    exact hparse
  · simp
  · have h1 : (altChunk args env ::
        atts.map (fun a => attCore a ((env.files a.path).getD []))).filter
        isAlternativePart = [altChunk args env] := by
      rw [List.filter_cons_of_pos (isAlternativePart_altChunk args env)]
      rw [List.filter_eq_nil_iff.mpr ?hnil]
      case hnil =>
        intro x hx
        rcases List.mem_map.mp hx with ⟨a, ha, rfl⟩
        simp [hnotalt a ha]
    rw [h1]
    rfl
  · have h2 : (altChunk args env ::
        atts.map (fun a => attCore a ((env.files a.path).getD []))).filter
        isAttachmentPart =
        atts.map (fun a => attCore a ((env.files a.path).getD [])) := by
      rw [List.filter_cons_of_neg
        (by simp [isAttachmentPart_altChunk args env halthdr haltdisp])]
      rw [List.filter_eq_self.mpr ?hall2]
      case hall2 =>
        intro x hx
        rcases List.mem_map.mp hx with ⟨a, ha, rfl⟩
        exact isAttachmentPart_attCore a _ (hatthdr a ha)
    rw [h2, List.length_map]

set_option maxRecDepth 100000 in
set_option maxHeartbeats 4000000 in
/-- Witness for C2: a concrete plain+HTML request with one attachment. -/
theorem sendEmail_mime_structure_witness :
    (sendEmail sendArgsW sendEnvW oracle0).2 =
      [GCall.messagesSend (base64urlEncode (mixedEmail sendArgsW sendEnvW))
        (sendThreadParam sendArgsW)] ∧
    ∃ parts,
      parseMixed (base64urlDecode (base64urlEncode (mixedEmail sendArgsW sendEnvW))) =
        some parts ∧
      parts.length = 1 + 1 ∧
      (parts.filter isAlternativePart).length = 1 ∧
      (parts.filter isAttachmentPart).length = 1 :=
  sendEmail_mime_structure sendArgsW sendEnvW oracle0
    [{ path := "/f.bin", filename := some (ascii "f.bin") }]
    (by rfl) (by decide) (by decide) (by decide) (by decide) (by rfl)
    (List.cons_ne_nil _ _) (by decide)
    (by unfold allBytes; decide) (by decide) (by decide) (by decide)
    (by decide) (by decide) (by decide) (by decide) (by decide) (by decide)
